import Mathlib

/-!
Verification development for the TiC MRF extraction pipeline.

The Python sources are shallowly embedded below:
* JSON-typed values (`JVal`) model the dynamically typed records that the
  resolver, the streaming parser and the payer handlers manipulate;
  dictionaries are association lists preserving insertion order, matching
  CPython dict semantics.
* Fallible code (subscripting a non-list, calling `.lower()` on a
  non-string, referencing an undefined global) is modelled in the
  `Except PyErr` monad.
* Python floats are modelled as exact rationals; `%.2f` formatting is
  modelled as round-half-even to two fractional digits.
-/

namespace TiC

/-- Python-style runtime errors relevant to the embedded code paths. -/
inductive PyErr where
  | typeError
  | attributeError
  | valueError
  | nameError
  | keyError
  deriving DecidableEq, Repr

/-- JSON values as manipulated by the pipeline.  `obj` keeps fields as an
insertion-ordered association list, as CPython dicts do. -/
inductive JVal where
  | null
  | bool (b : Bool)
  | num (q : Rat)
  | str (s : String)
  | arr (xs : List JVal)
  | obj (kvs : List (String × JVal))
  deriving Repr

namespace JVal

mutual

/-- Structural (Python `==`) equality of JSON values. -/
def jbeq : JVal → JVal → Bool
  | null, null => true
  | bool a, bool b => a == b
  | num a, num b => a == b
  | str a, str b => a == b
  | arr xs, arr ys => jbeqList xs ys
  | obj xs, obj ys => jbeqFields xs ys
  | _, _ => false

/-- Elementwise equality of JSON arrays. -/
def jbeqList : List JVal → List JVal → Bool
  | [], [] => true
  | x :: xs, y :: ys => jbeq x y && jbeqList xs ys
  | _, _ => false

/-- Pairwise equality of object field lists. -/
def jbeqFields : List (String × JVal) → List (String × JVal) → Bool
  | [], [] => true
  | (k, v) :: xs, (k', v') :: ys => k == k' && jbeq v v' && jbeqFields xs ys
  | _, _ => false

end

/-- Python truthiness of a JSON value. -/
def truthy : JVal → Bool
  | null => false
  | bool b => b
  | num q => q != 0
  | str s => s ≠ ""
  | arr xs => !xs.isEmpty
  | obj kvs => !kvs.isEmpty

/-- Association-list lookup: `d[k]` / `d.get(k)` on the field list. -/
def find? (kvs : List (String × JVal)) (k : String) : Option JVal :=
  match kvs with
  | [] => none
  | (k', v) :: rest => if k' = k then some v else find? rest k

/-- Python `d.get(k)` with Python's `None` default, on an object; `AttributeError`
is not modelled here (callers check for objects first). -/
def get (v : JVal) (k : String) : JVal :=
  match v with
  | obj kvs => (find? kvs k).getD null
  | _ => null

/-- Python `d.get(k, default)`. -/
def getD (v : JVal) (k : String) (default : JVal) : JVal :=
  match v with
  | obj kvs => (find? kvs k).getD default
  | _ => default

/-- Python `k in d` on an object. -/
def contains (v : JVal) (k : String) : Bool :=
  match v with
  | obj kvs => (find? kvs k).isSome
  | _ => false

/-- Python `d[k] = v'` with CPython dict semantics: an existing key keeps its
position, a new key is appended at the end. -/
def setKey (kvs : List (String × JVal)) (k : String) (v' : JVal) :
    List (String × JVal) :=
  match kvs with
  | [] => [(k, v')]
  | (k', v) :: rest =>
    if k' = k then (k', v') :: rest else (k', v) :: setKey rest k v'

end JVal

/-- Python `float(s)` on a string: optional sign, decimal digits with an optional
fractional part (exponent forms do not occur in the embedded data). -/
def parsePyFloat? (s : String) : Option Rat :=
  let t := s.trim
  let sgn : Rat := if t.startsWith "-" then -1 else 1
  let body := if t.startsWith "-" ∨ t.startsWith "+" then t.drop 1 else t
  match body.split (fun c => c = '.') with
  | [ip] =>
    match ip.toNat? with
    | some n => some (sgn * n)
    | none => none
  | [ip, fp] =>
    if ip = "" ∧ fp = "" then none
    else
      let ipn := if ip = "" then some 0 else ip.toNat?
      let fpn := if fp = "" then some 0 else fp.toNat?
      match ipn, fpn with
      | some a, some b => some (sgn * ((a : Rat) + (b : Rat) / (10 ^ fp.length)))
      | _, _ => none
  | _ => none

/-- Python `float(v)`: numbers stay themselves, booleans coerce, parseable
strings parse (`ValueError` otherwise), anything else is a `TypeError`. -/
def pyFloat (v : JVal) : Except PyErr Rat :=
  match v with
  | .num q => .ok q
  | .bool b => .ok (if b then 1 else 0)
  | .str s =>
    match parsePyFloat? s with
    | some q => .ok q
    | none => .error .valueError
  | _ => .error .typeError

namespace JVal

/-- Python `float(v)` guarded by `try/except (ValueError, TypeError): pass`:
numbers stay themselves, booleans coerce, strings parse when possible,
everything else is left unchanged. -/
def floatCoerceLenient (v : JVal) : JVal :=
  match v with
  | num q => num q
  | bool b => num (if b then 1 else 0)
  | str s =>
    match parsePyFloat? s with
    | some q => num q
    | none => str s
  | v => v

end JVal

/-- An `Except`-valued map over a list, point of failure propagating
(the shape of a Python `for` loop whose body may raise). -/
def mapExcept {α β : Type} (f : α → Except PyErr β) :
    List α → Except PyErr (List β)
  | [] => .ok []
  | x :: xs => do
    let y ← f x
    let ys ← mapExcept f xs
    return y :: ys

/-! ### Identity generation (`production_etl_pipeline.py`, `UUIDGenerator`)

`uuid.uuid5` itself is a cryptographic hash; the development treats it as
an arbitrary function of the namespace UUID and the name string, which is
exactly what determinism claims quantify over.  `uuid.NAMESPACE_DNS` is
the fixed DNS namespace constant. -/

/-- The canonical string of `uuid.NAMESPACE_DNS`. -/
def NAMESPACE_DNS : String := "6ba7b810-9dad-11d1-80b4-00c04fd430c8"

/-- Round half to even (the rounding used by `format(x, ".2f")`). -/
def roundHalfEven (x : Rat) : Int :=
  let f : Int := ⌊x⌋
  let frac : Rat := x - f
  if frac < 1/2 then f
  else if frac > 1/2 then f + 1
  else if f % 2 = 0 then f else f + 1

/-- Python `f"{rate:.2f}"`: two fixed fractional digits. -/
def fmt2 (q : Rat) : String :=
  let n : Int := roundHalfEven (q * 100)
  let sign : String := if n < 0 then "-" else ""
  let m : Nat := n.natAbs
  let rem : Nat := m % 100
  sign ++ toString (m / 100) ++ "." ++ (if rem < 10 then "0" else "") ++ toString rem

/-- Python `UUIDGenerator.generate_uuid`: join the components with `"|"` and hash
under the namespace `UUID5(DNS, "healthcare.<category>")`. -/
def generate_uuid (uuid5 : String → String → String) (category : String)
    (components : List String) : String :=
  let content := String.intercalate "|" components
  let namespace_uuid := uuid5 NAMESPACE_DNS ("healthcare." ++ category)
  uuid5 namespace_uuid content

/-- Python `UUIDGenerator.payer_uuid` (the source defaults `parent_org` to `""`;
call sites in the pipeline rely on that default). -/
def payer_uuid (uuid5 : String → String → String) (payer_name : String)
    (parent_org : String) : String :=
  generate_uuid uuid5 "payers" [payer_name, parent_org]

/-- Python `UUIDGenerator.organization_uuid` (`org_name` defaults to `""` in the
source). -/
def organization_uuid (uuid5 : String → String → String) (tin : String)
    (org_name : String) : String :=
  generate_uuid uuid5 "organizations" [tin, org_name]

/-- Python `UUIDGenerator.provider_uuid`. -/
def provider_uuid (uuid5 : String → String → String) (npi : String) : String :=
  generate_uuid uuid5 "providers" [npi]

/-- Python `UUIDGenerator.rate_uuid`: the rate component is formatted with two
fractional digits (`f"{rate:.2f}"`). -/
def rate_uuid (uuid5 : String → String → String) (payer_uuid_ org_uuid : String)
    (service_code : String) (rate : Rat) (effective_date : String) : String :=
  generate_uuid uuid5 "rates"
    [payer_uuid_, org_uuid, service_code, fmt2 rate, effective_date]

/-! ### Quality validation (`production_etl_pipeline.py`,
`DataQualityValidator.validate_rate_record`)

The validator inspects five projections of the rate-record dict:
`service_code`, `negotiated_rate`, `payer_uuid`, `organization_uuid` and
`provider_network.npi_list`.  `VRecord` is exactly that projection; `none`
models an absent (or `None`) key, and Python falsiness of the present
values (`""`, `0.0`) is modelled explicitly.  Note texts embed the values
they interpolate; the rendering of a float by `str` is abstracted as a
parameter since no claim depends on its digits. -/

/-- The fields of a rate record that `validate_rate_record` inspects. -/
structure VRecord where
  service_code : Option String
  negotiated_rate : Option Rat
  payer_uuid : Option String
  organization_uuid : Option String
  npi_list : List String
  deriving DecidableEq, Repr

/-- Python truthiness of an optional string field (`record.get(f)`). -/
def pyTruthyStr : Option String → Bool
  | none => false
  | some s => s ≠ ""

/-- Python truthiness of an optional numeric field. -/
def pyTruthyRat : Option Rat → Bool
  | none => false
  | some q => q ≠ 0

/-- Python `[f for f in required_fields if not record.get(f)]`, in source order. -/
def missingRequired (r : VRecord) : List String :=
  (if pyTruthyStr r.service_code then [] else ["service_code"]) ++
  (if pyTruthyRat r.negotiated_rate then [] else ["negotiated_rate"]) ++
  (if pyTruthyStr r.payer_uuid then [] else ["payer_uuid"]) ++
  (if pyTruthyStr r.organization_uuid then [] else ["organization_uuid"])

/-- The reason notes appended by the validator, kept structured; the final
string renders each and joins with `"; "`. -/
inductive ValidationNote where
  | missingRequiredFields (fields : List String)
  | unusualRateValue (rate : Rat)
  | noNpisAssociated
  deriving DecidableEq, Repr

/-- The quality envelope attached to each rate record. -/
structure QualityFlags where
  is_validated : Bool
  has_conflicts : Bool
  confidence_score : Rat
  validation_notes : String
  deriving DecidableEq, Repr

/-- Python `DataQualityValidator.validate_rate_record`: start at score 1.0,
deduct 0.3 for missing required fields (clearing `is_validated`), 0.2 for
a rate outside (0, 10000] (setting `has_conflicts`), 0.1 for an empty NPI
list; join the notes with `"; "`.  `render` stands for Python's `str` on
the interpolated values inside each note. -/
def validate_rate_record (render : ValidationNote → String) (record : VRecord) :
    QualityFlags :=
  let missing_fields := missingRequired record
  let validated := missing_fields.isEmpty
  let score1 : Rat := if missing_fields.isEmpty then 1 else 1 - 3/10
  let notes1 : List ValidationNote :=
    if missing_fields.isEmpty then []
    else [ValidationNote.missingRequiredFields missing_fields]
  let rate : Rat := record.negotiated_rate.getD 0
  let conflicts := rate ≤ 0 || rate > 10000
  let score2 : Rat := if conflicts then score1 - 2/10 else score1
  let notes2 := notes1 ++
    (if conflicts then [ValidationNote.unusualRateValue rate] else [])
  let score3 : Rat := if record.npi_list.isEmpty then score2 - 1/10 else score2
  let notes3 := notes2 ++
    (if record.npi_list.isEmpty then [ValidationNote.noNpisAssociated] else [])
  { is_validated := validated
    has_conflicts := conflicts
    confidence_score := score3
    validation_notes := String.intercalate "; " (notes3.map render) }

/-! ### Record construction and the per-file loop
(`production_etl_pipeline.py`, `ProductionETLPipeline.create_rate_record`,
`create_organization_record`, `create_provider_records`,
`process_mrf_file_enhanced`)

`normalize_tic_record` is imported by the pipeline but not part of the
sources; the loop below therefore takes the normalizer as an arbitrary
function into typed normalized rows, so every theorem about the loop holds
for every possible normalizer.  Timestamp-valued bookkeeping fields
(`created_at`, lineage timestamps) and the plan/lineage metadata copied
verbatim from `file_info` are not modelled; no claim depends on them. -/

/-- The value of `normalized.get("provider_npi", [])`: absent, a bare
int/str scalar, or a list (items already rendered by `str`). -/
inductive NpiField where
  | absent
  | one (npi : String)
  | many (npis : List String)
  deriving DecidableEq, Repr

/-- The npi_list extraction in `create_rate_record`: a scalar becomes a
singleton, a truthy list is mapped through `str`, a falsy value stays
empty. -/
def npiListOf : NpiField → List String
  | .absent => []
  | .one npi => [npi]
  | .many npis => npis

/-- A normalized row as consumed by `create_rate_record` (the fields the
pipeline reads off the normalizer's output dict). -/
structure NormalizedRec where
  service_code : String
  description : String
  billing_code_type : String
  negotiated_rate : Rat
  billing_class : String
  negotiated_type : Option String
  service_codes : List String
  expiration_date : Option String
  provider_npi : NpiField
  provider_tin : Option String
  provider_name : Option String
  deriving DecidableEq, Repr

/-- The modelled fields of the structured rate record built by
`create_rate_record`. -/
structure RateRecord where
  rate_uuid : String
  payer_uuid : String
  organization_uuid : String
  service_code : String
  service_description : String
  billing_code_type : String
  negotiated_rate : Rat
  billing_class : String
  rate_type : String
  service_codes : List String
  npi_list : List String
  npi_count : Nat
  deriving DecidableEq, Repr

/-- Python `ProductionETLPipeline.create_rate_record`. -/
def create_rate_record (uuid5 : String → String → String)
    (payerUuid : String) (n : NormalizedRec) : RateRecord :=
  let org_uuid := organization_uuid uuid5 (n.provider_tin.getD "")
    (n.provider_name.getD "")
  let rate_uuid_ := rate_uuid uuid5 payerUuid org_uuid n.service_code
    n.negotiated_rate (n.expiration_date.getD "")
  let npi_list := npiListOf n.provider_npi
  { rate_uuid := rate_uuid_
    payer_uuid := payerUuid
    organization_uuid := org_uuid
    service_code := n.service_code
    service_description := n.description
    billing_code_type := n.billing_code_type
    negotiated_rate := n.negotiated_rate
    billing_class := n.billing_class
    rate_type := n.negotiated_type.getD "negotiated"
    service_codes := n.service_codes
    npi_list := npi_list
    npi_count := npi_list.length }

/-- The validator's view of a structured rate record (every inspected key
is present on the dict `create_rate_record` builds). -/
def vrecordOf (r : RateRecord) : VRecord :=
  { service_code := some r.service_code
    negotiated_rate := some r.negotiated_rate
    payer_uuid := some r.payer_uuid
    organization_uuid := some r.organization_uuid
    npi_list := r.npi_list }

/-- The modelled fields of an organization record. -/
structure OrgRecord where
  organization_uuid : String
  tin : String
  organization_name : String
  is_facility : Bool
  deriving DecidableEq, Repr

/-- Python `ProductionETLPipeline.create_organization_record`. -/
def create_organization_record (uuid5 : String → String → String)
    (n : NormalizedRec) : OrgRecord :=
  let tin := n.provider_tin.getD ""
  let org_name := n.provider_name.getD ""
  { organization_uuid := organization_uuid uuid5 tin org_name
    tin := tin
    organization_name := if org_name ≠ "" then org_name
      else "Organization-" ++ tin
    is_facility := n.billing_class = "facility" }

/-- The modelled fields of a provider record. -/
structure ProvRecord where
  provider_uuid : String
  npi : String
  organization_uuid : String
  deriving DecidableEq, Repr

/-- Python `ProductionETLPipeline.create_provider_records`: nothing for a falsy
NPI field, otherwise one record per NPI. -/
def create_provider_records (uuid5 : String → String → String)
    (n : NormalizedRec) : List ProvRecord :=
  let npi_list := npiListOf n.provider_npi
  if npi_list.isEmpty then []
  else
    let org_uuid := organization_uuid uuid5 (n.provider_tin.getD "")
      (n.provider_name.getD "")
    npi_list.map fun npi =>
      { provider_uuid := provider_uuid uuid5 npi
        npi := npi
        organization_uuid := org_uuid }

/-- The three output batch streams plus the per-file organization dedup
set (`file_stats["organizations_created"]`).  Flushing partitions these
lists into files; the accumulated contents are what reaches the sink. -/
structure Batches where
  rates : List (RateRecord × QualityFlags)
  orgs : List OrgRecord
  providers : List ProvRecord
  orgSeen : List String
  deriving DecidableEq, Repr

/-- The empty batch state at the start of a file. -/
def Batches.initial : Batches := ⟨[], [], [], []⟩

/-- One iteration of the record loop in `process_mrf_file_enhanced`, after
normalization: build the rate record, attach the quality envelope, and
append to the batches only when `is_validated` (creating the organization
record at most once per `organization_uuid` and one provider record per
NPI). -/
def processNormalized (uuid5 : String → String → String)
    (render : ValidationNote → String) (payerUuid : String)
    (st : Batches) (n : NormalizedRec) : Batches :=
  let rate_record := create_rate_record uuid5 payerUuid n
  let quality_flags := validate_rate_record render (vrecordOf rate_record)
  if quality_flags.is_validated then
    let org_uuid := rate_record.organization_uuid
    let newOrg := ¬ org_uuid ∈ st.orgSeen
    { rates := st.rates ++ [(rate_record, quality_flags)]
      orgs := st.orgs ++
        (if newOrg then [create_organization_record uuid5 n] else [])
      providers := st.providers ++ create_provider_records uuid5 n
      orgSeen := st.orgSeen ++ (if newOrg then [org_uuid] else []) }
  else st

/-- Python `max_records_per_file`: the loop breaks once that many raw records
have been drawn from the stream. -/
def truncateRecords {Raw : Type} (maxRecords : Option Nat)
    (raws : List Raw) : List Raw :=
  match maxRecords with
  | none => raws
  | some m => raws.take m

/-- The record loop of `process_mrf_file_enhanced` over the raw records a
file yields: honor `max_records_per_file`, normalize (dropping records the
normalizer rejects), validate, and batch. -/
def process_mrf_file {Raw : Type} (uuid5 : String → String → String)
    (render : ValidationNote → String) (payerUuid : String)
    (normTic : Raw → Option NormalizedRec) (maxRecords : Option Nat)
    (raws : List Raw) : Batches :=
  (truncateRecords maxRecords raws).foldl
    (fun st raw =>
      match normTic raw with
      | none => st
      | some n => processNormalized uuid5 render payerUuid st n)
    Batches.initial

/-! ### Record normalizer (`src/tic_mrf_scraper/transform/normalize.py`,
`normalize_record`) -/

/-- Python `a or b`. -/
def pyOr (a b : JVal) : JVal := if a.truthy then a else b

/-- Python `record["negotiated_rates"][0].get("negotiated_price")` and the
`elif "negotiated_rate" in record` fallback; the rate stays `None` when
neither source applies. -/
def extractRate (record : JVal) : Except PyErr JVal :=
  if record.contains "negotiated_rates" ∧ (record.get "negotiated_rates").truthy then
    match record.get "negotiated_rates" with
    | .arr (x :: _) =>
      match x with
      | .obj _ => .ok (x.get "negotiated_price")
      | .str _ => .error .attributeError
      | _ => .error .typeError
    | .arr [] => .ok .null
    | .str _ => .error .attributeError
    | .obj _ => .error .keyError
    | _ => .error .typeError
  else if record.contains "negotiated_rate" then
    .ok (record.get "negotiated_rate")
  else
    .ok .null

/-- The row built on success:
`{"service_code": billing_code, "negotiated_rate": float(rate), "payer": payer}`. -/
def buildNormalizedRow (billing_code rate : JVal) (payer : String) :
    Except PyErr (Option JVal) :=
  match rate with
  | .null => .ok none
  | r => do
    let q ← pyFloat r
    return some (JVal.obj
      [("service_code", billing_code), ("negotiated_rate", .num q),
       ("payer", .str payer)])

/-- Python `normalize_record`: drop when the billing code (or its `cpt_code`
fallback) is falsy or not in the whitelist, drop when no rate can be
extracted, otherwise emit the three-field row.  A truthy non-string
billing code is hashable-but-never a member of the string whitelist
(numbers, booleans) or unhashable (`TypeError` for lists and dicts). -/
def normalize_record (record : JVal) (cpt_whitelist : List String)
    (payer : String) : Except PyErr (Option JVal) :=
  let billing_code := pyOr (record.get "billing_code") (record.get "cpt_code")
  if ¬ billing_code.truthy then .ok none
  else
    match billing_code with
    | .arr _ => .error .typeError
    | .obj _ => .error .typeError
    | .str s =>
      if ¬ cpt_whitelist.contains s then .ok none
      else do
        let rate ← extractRate record
        buildNormalizedRow (.str s) rate payer
    | _ => .ok none

/-! ### ToC resolver (`src/tic_mrf_scraper/fetch/blobs.py`,
`list_mrf_blobs_enhanced`)

The HTTP fetch and retry wrapper is out of scope; the resolver is
embedded on the parsed JSON of the index document. -/

/-- The first `provider_references` entry carrying a `location`
(the inner `for`/`break` of the resolver). -/
def firstProviderRefLocation (refs : List JVal) : Option JVal :=
  refs.findSome? fun r =>
    if r.contains "location" then some (r.get "location") else none

/-- Attach `provider_reference_url` to an in-network descriptor when the
reporting structure carries a `provider_references` list with a located
entry. -/
def attachProviderRefUrl (struct : JVal) (mrf : List (String × JVal)) :
    Except PyErr (List (String × JVal)) :=
  if struct.contains "provider_references" then
    match struct.get "provider_references" with
    | .arr refs =>
      match firstProviderRefLocation refs with
      | some loc => .ok (JVal.setKey mrf "provider_reference_url" loc)
      | none => .ok mrf
    | _ => .error .typeError
  else .ok mrf

/-- The `in_network_files` loop of a reporting structure: one descriptor
of type `in_network_rates` per entry that carries a `location`. -/
def inNetworkDescriptors (i : Nat) (struct : JVal)
    (plan_name plan_id plan_market_type : JVal) :
    Except PyErr (List JVal) :=
  if struct.contains "in_network_files" then
    match struct.get "in_network_files" with
    | .arr files => do
      let descs ← mapExcept (fun (jf : Nat × JVal) =>
        match jf.2 with
        | .obj _ =>
          if jf.2.contains "location" then do
            let base := [("url", jf.2.get "location"),
              ("type", JVal.str "in_network_rates"),
              ("plan_name", plan_name), ("plan_id", plan_id),
              ("plan_market_type", plan_market_type),
              ("description", jf.2.getD "description" (.str "")),
              ("reporting_structure_index", JVal.num i),
              ("file_index", JVal.num jf.1)]
            let withRef ← attachProviderRefUrl struct base
            return some (JVal.obj withRef)
          else return none
        | _ => .error .typeError) files.enum
      return descs.reduceOption
    | _ => .error .typeError
  else .ok []

/-- The `allowed_amount_file` block of a reporting structure. -/
def allowedAmountDescriptor (i : Nat) (struct : JVal)
    (plan_name plan_id plan_market_type : JVal) : List JVal :=
  if struct.contains "allowed_amount_file" then
    let af := struct.get "allowed_amount_file"
    if af.contains "location" then
      [JVal.obj [("url", af.get "location"),
        ("type", .str "allowed_amounts"),
        ("plan_name", plan_name), ("plan_id", plan_id),
        ("plan_market_type", plan_market_type),
        ("description", af.getD "description" (.str "")),
        ("reporting_structure_index", .num i), ("file_index", .num 0)]]
    else []
  else []

/-- One iteration of the `reporting_structure` loop. -/
def processReportingStructure (i : Nat) (struct : JVal) :
    Except PyErr (List JVal) :=
  match struct with
  | .obj _ => do
    let plan_name := struct.getD "plan_name" (.str ("plan_" ++ toString i))
    let plan_id := struct.get "plan_id"
    let plan_market_type := struct.get "plan_market_type"
    let inNet ← inNetworkDescriptors i struct plan_name plan_id plan_market_type
    return inNet ++ allowedAmountDescriptor i struct plan_name plan_id plan_market_type
  | _ => .error .attributeError

/-- Python `list_mrf_blobs_enhanced` on the parsed index document: dispatch on
the three recognized magic keys, `ValueError` otherwise (and for a
non-dict document). -/
def list_mrf_blobs_enhanced (data : JVal) : Except PyErr (List JVal) :=
  match data with
  | .obj _ =>
    if data.contains "reporting_structure" then
      match data.get "reporting_structure" with
      | .arr structures => do
        let parts ← mapExcept (fun (p : Nat × JVal) =>
          processReportingStructure p.1 p.2) structures.enum
        return parts.flatten
      | _ => .error .typeError
    else if data.contains "blobs" then
      match data.get "blobs" with
      | .arr blobs => do
        let opts ← mapExcept (fun (p : Nat × JVal) =>
          match p.2 with
          | .obj _ =>
            if p.2.contains "url" then
              .ok (some (JVal.obj [("url", p.2.get "url"),
                ("type", .str "unknown"),
                ("plan_name", p.2.getD "name" (.str ("blob_" ++ toString p.1))),
                ("plan_id", .null), ("plan_market_type", .null),
                ("description", p.2.getD "description" (.str "")),
                ("reporting_structure_index", .num 0),
                ("file_index", .num p.1)]))
            else .ok none
          | _ => .error .typeError) blobs.enum
        return opts.reduceOption
      | _ => .error .typeError
    else if data.contains "in_network_files" then
      match data.get "in_network_files" with
      | .arr files => do
        let opts ← mapExcept (fun (p : Nat × JVal) =>
          match p.2 with
          | .obj _ =>
            if p.2.contains "location" then
              .ok (some (JVal.obj [("url", p.2.get "location"),
                ("type", .str "in_network_rates"),
                ("plan_name", p.2.getD "description" (.str ("file_" ++ toString p.1))),
                ("plan_id", .null), ("plan_market_type", .null),
                ("description", p.2.getD "description" (.str "")),
                ("reporting_structure_index", .num 0),
                ("file_index", .num p.1)]))
            else .ok none
          | _ => .error .typeError) files.enum
        return opts.reduceOption
      | _ => .error .typeError
    else .error .valueError
  | _ => .error .valueError

/-! ### Streaming parser (`src/tic_mrf_scraper/stream/parser.py`,
`TiCMRFParser`)

`load_provider_references` is embedded on the parsed reference document;
the fetch/gzip layer and its `try/except` produce an empty table on any
failure, which the fall-through cases below mirror.  The table is keyed
by the *enumeration index* of each entry, exactly as the source builds
it (`provider_lookup[i] = provider`). -/

/-- Python `TiCMRFParser.load_provider_references` on the parsed reference
document: the lookup table maps each enumeration index to the entry. -/
def load_provider_references (data : JVal) : List (JVal × JVal) :=
  match data with
  | .obj _ =>
    match data.get "provider_references" with
    | .arr ps => ps.enum.map fun p => (JVal.num p.1, p.2)
    | _ => []
  | _ => []

/-- Python `stream_parse_enhanced` loads the table eagerly iff an out-of-band
reference URL was supplied; otherwise every lookup misses. -/
def providerReferencesFor (provider_ref_doc : Option JVal) :
    List (JVal × JVal) :=
  match provider_ref_doc with
  | some doc => load_provider_references doc
  | none => []

/-- Python `dict.get(key, default)` on the reference table (keys compared
by value equality). -/
def lookupRef (table : List (JVal × JVal)) (key : JVal) : Option JVal :=
  (table.find? fun p => JVal.jbeq p.1 key).map Prod.snd

/-- Python `TiCMRFParser._create_rate_record`: flatten one provider attribution
into a rate record.  `provider_info` must be a dict (three `.get` calls);
a truthy non-dict `tin` raises on its `.get("value")`. -/
def createRateRecord (billing_code billing_code_type description : JVal)
    (negotiated_rate service_codes billing_class : JVal)
    (negotiated_type expiration_date : JVal) (provider_info : JVal)
    (payer : String) : Except PyErr JVal := do
  match provider_info with
  | .obj _ =>
    let ratef ← pyFloat negotiated_rate
    let tinv := provider_info.get "tin"
    let provider_tin ←
      if tinv.truthy then
        match tinv with
        | .obj _ => .ok (tinv.get "value")
        | _ => .error .attributeError
      else .ok JVal.null
    return JVal.obj [("billing_code", billing_code),
      ("billing_code_type", billing_code_type),
      ("description", description),
      ("negotiated_rate", .num ratef),
      ("service_codes", service_codes),
      ("billing_class", billing_class),
      ("negotiated_type", negotiated_type),
      ("expiration_date", expiration_date),
      ("provider_npi", provider_info.get "npi"),
      ("provider_name", provider_info.get "provider_group_name"),
      ("provider_tin", provider_tin),
      ("payer", .str payer)]
  | _ => .error .attributeError

/-- One `price_item` of a rate group.  A `None` rate is skipped.  The two
"generic record" branches call `_create_rate_record` without the required
`negotiated_type`, `expiration_date` and `provider_info` positional
arguments, which raises a `TypeError` in Python; the embedding keeps that
error. -/
def parsePriceItem (table : List (JVal × JVal))
    (billing_code billing_code_type description : JVal) (payer : String)
    (provider_refs provider_groups : JVal) (price_item : JVal) :
    Except PyErr (List JVal) :=
  match price_item with
  | .obj _ =>
    match price_item.get "negotiated_rate" with
    | .null => .ok []
    | negotiated_rate =>
      let service_codes := price_item.getD "service_code" (.arr [])
      let billing_class := price_item.getD "billing_class" (.str "")
      let negotiated_type := price_item.getD "negotiated_type" (.str "")
      let expiration_date := price_item.getD "expiration_date" (.str "")
      if provider_refs.truthy then
        match provider_refs with
        | .arr refs =>
          mapExcept (fun ref =>
            let provider_info := (lookupRef table ref).getD (JVal.obj [])
            createRateRecord billing_code billing_code_type description
              negotiated_rate service_codes billing_class negotiated_type
              expiration_date provider_info payer) refs
        | _ => .error .typeError
      else if provider_groups.truthy then
        match provider_groups with
        | .arr pgs => do
          let parts ← mapExcept (fun pg =>
            if pg.contains "npi" ∨ pg.contains "tin" then do
              let r ← createRateRecord billing_code billing_code_type
                description negotiated_rate service_codes billing_class
                negotiated_type expiration_date pg payer
              return [r]
            else if pg.contains "providers" then
              match pg.getD "providers" (.arr []) with
              | .arr provs =>
                mapExcept (fun p =>
                  createRateRecord billing_code billing_code_type
                    description negotiated_rate service_codes billing_class
                    negotiated_type expiration_date p payer) provs
              | _ => .error .typeError
            else .error .typeError) pgs
          return parts.flatten
        | _ => .error .typeError
      else .error .typeError
  | _ => .error .attributeError

/-- One `rate_group` of an in-network item. -/
def parseRateGroup (table : List (JVal × JVal))
    (billing_code billing_code_type description : JVal) (payer : String)
    (rate_group : JVal) : Except PyErr (List JVal) :=
  match rate_group with
  | .obj _ =>
    let provider_refs := rate_group.getD "provider_references" (.arr [])
    let provider_groups := rate_group.getD "provider_groups" (.arr [])
    match rate_group.getD "negotiated_prices" (.arr []) with
    | .arr prices => do
      let parts ← mapExcept (parsePriceItem table billing_code
        billing_code_type description payer provider_refs provider_groups)
        prices
      return parts.flatten
    | _ => .error .typeError
  | _ => .error .attributeError

/-- Python `TiCMRFParser.parse_negotiated_rates` on one in-network item. -/
def parse_negotiated_rates (table : List (JVal × JVal)) (item : JVal)
    (payer : String) : Except PyErr (List JVal) :=
  match item with
  | .obj _ =>
    let billing_code := item.get "billing_code"
    let billing_code_type := item.getD "billing_code_type" (.str "")
    let description := item.getD "description" (.str "")
    let negotiated_rates := item.getD "negotiated_rates" (.arr [])
    if ¬ negotiated_rates.truthy then .ok []
    else
      match negotiated_rates with
      | .arr groups => do
        let parts ← mapExcept (parseRateGroup table billing_code
          billing_code_type description payer) groups
        return parts.flatten
      | _ => .error .typeError
  | _ => .error .attributeError

/-! ### Centene handler (`src/tic_mrf_scraper/payers/centene.py`,
`CenteneHandler.parse_in_network`)

The handler mutates the decoded record *in place* and returns
`[record]`.  The embedding threads the mutation explicitly: the result
pairs the returned list with the post-call value of the caller's record,
which in Python aliases the returned element. -/

/-- Python `d[k] = f(d[k])` guarded by `if k in d`: replace the value in place,
leave the dict untouched when the key is absent. -/
def JVal.modifyKey (kvs : List (String × JVal)) (k : String)
    (f : JVal → JVal) : List (String × JVal) :=
  match kvs with
  | [] => []
  | (k', v) :: rest =>
    if k' = k then (k', f v) :: rest else (k', v) :: JVal.modifyKey rest k f

/-- Monadic `modifyKey` for updates that may raise. -/
def JVal.modifyKeyM (kvs : List (String × JVal)) (k : String)
    (f : JVal → Except PyErr JVal) : Except PyErr (List (String × JVal)) :=
  match kvs with
  | [] => .ok []
  | (k', v) :: rest =>
    if k' = k then do
      let v' ← f v
      return (k', v') :: rest
    else do
      let rest' ← JVal.modifyKeyM rest k f
      return (k', v) :: rest'

/-- ASCII lowering of one character (the `str.lower` model). -/
def charLower (c : Char) : Char :=
  if 65 ≤ c.toNat ∧ c.toNat ≤ 90 then Char.ofNat (c.toNat + 32) else c

/-- Python `s.lower()`. -/
def strLower (s : String) : String := ⟨s.data.map charLower⟩

/-- Whitespace stripped by `str.strip`. -/
def isSpc (c : Char) : Bool :=
  c.toNat = 32 ∨ c.toNat = 9 ∨ c.toNat = 10 ∨ c.toNat = 13

/-- Python `s.strip()`. -/
def strStrip (s : String) : String :=
  ⟨((s.data.dropWhile isSpc).reverse.dropWhile isSpc).reverse⟩

/-- Python `v.lower()`: lowercase a string, `AttributeError` otherwise. -/
def pyLower (v : JVal) : Except PyErr JVal :=
  match v with
  | .str s => .ok (.str (strLower s))
  | _ => .error .attributeError

/-- Python `v.lower()` guarded by `isinstance(v, str)`. -/
def lowerIfStr (v : JVal) : JVal :=
  match v with
  | .str s => .str (strLower s)
  | v => v

/-- Python `v.strip()` guarded by `isinstance(v, str)`. -/
def stripIfStr (v : JVal) : JVal :=
  match v with
  | .str s => .str (strStrip s)
  | v => v

/-- Python `v if isinstance(v, list) else [v]`. -/
def wrapIfNotList (v : JVal) : JVal :=
  match v with
  | .arr xs => .arr xs
  | v => .arr [v]

/-- Python `[v] if isinstance(v, str) else (v if isinstance(v, list) else [])`. -/
def listWrapOrEmpty (v : JVal) : JVal :=
  match v with
  | .str s => .arr [.str s]
  | .arr xs => .arr xs
  | _ => .arr []

/-- The body of the `negotiated_prices` loop in
`CenteneHandler._normalize_centene_pricing`: coerce the rate to float
(lenient), lowercase `negotiated_type` (raising on a non-string), wrap
`service_code` and `billing_code_modifier` into lists. -/
def centeneAdaptPrice (price : JVal) : Except PyErr JVal :=
  match price with
  | .obj kvs => do
    let kvs1 := JVal.modifyKey kvs "negotiated_rate" JVal.floatCoerceLenient
    let kvs2 ← JVal.modifyKeyM kvs1 "negotiated_type" pyLower
    let kvs3 := JVal.modifyKey kvs2 "service_code" listWrapOrEmpty
    let kvs4 := JVal.modifyKey kvs3 "billing_code_modifier" listWrapOrEmpty
    return .obj kvs4
  | _ => .error .typeError

/-- Python `CenteneHandler._normalize_centene_pricing` on the field list: adapt
each price in place when `negotiated_prices` is present. -/
def centenePricingStep (kvs : List (String × JVal)) :
    Except PyErr (List (String × JVal)) :=
  match JVal.find? kvs "negotiated_prices" with
  | none => .ok kvs
  | some (.arr prices) => do
    let prices' ← mapExcept centeneAdaptPrice prices
    return JVal.modifyKey kvs "negotiated_prices" fun _ => .arr prices'
  | some _ => .error .typeError

/-- One rate group under the three Centene normalizers
(`_normalize_centene_provider_structure`, `_normalize_centene_pricing`,
`_normalize_centene_metadata`), applied in source order. -/
def centeneAdaptRateGroup (rate_group : JVal) : Except PyErr JVal :=
  match rate_group with
  | .obj kvs0 => do
    let kvs1 := JVal.modifyKey kvs0 "provider_references" wrapIfNotList
    let kvs2 := JVal.modifyKey kvs1 "provider_groups" wrapIfNotList
    let kvs3 ← centenePricingStep kvs2
    let kvs4 := JVal.modifyKey kvs3 "negotiation_arrangement" lowerIfStr
    let kvs5 := JVal.modifyKey kvs4 "billing_code_type_version" stripIfStr
    return .obj kvs5
  | _ => .error .typeError

/-- Python `CenteneHandler.parse_in_network`: mutate each rate group in place and
return `[record]`.  The first component is the returned list, the second
the post-call value of the caller's record (they alias in Python). -/
def centene_parse_in_network (record : JVal) :
    Except PyErr (List JVal × JVal) :=
  match record with
  | .obj kvs =>
    if (JVal.find? kvs "negotiated_rates").isSome then
      match (JVal.find? kvs "negotiated_rates").getD .null with
      | .arr groups => do
        let groups' ← mapExcept centeneAdaptRateGroup groups
        let record' := JVal.obj
          (JVal.modifyKey kvs "negotiated_rates" fun _ => .arr groups')
        return ([record'], record')
      | _ => .error .typeError
    else .ok ([record], record)
  | _ => .error .typeError

/-! ### BCBS-IL handler (`src/tic_mrf_scraper/payers/bcbs_il.py`,
`Bcbs_IlHandler.parse_in_network`)

After reading `billing_code`, `billing_code_type` and `description`, the
method branches on `patterns["handler_complexity"]` — but `patterns` is
not defined anywhere in the module or its imports, so every call raises
`NameError` before any record is produced. -/

/-- Python `Bcbs_IlHandler.parse_in_network`: the three initial `.get` calls
require a dict (`AttributeError` otherwise); the branch on the undefined
global `patterns` then raises `NameError` unconditionally. -/
def bcbs_il_parse_in_network (record : JVal) : Except PyErr (List JVal) :=
  match record with
  | .obj _ => .error .nameError
  | _ => .error .attributeError

/-! ### Spec-side formulation of the ToC resolver (section 4.2 / section 8
of the specification), for comparison with `list_mrf_blobs_enhanced` -/

/-- Whether a JSON value is a dict. -/
def JVal.isObj : JVal → Bool
  | .obj _ => true
  | _ => false

/-- Whether a descriptor's `type` field is the given kind. -/
def hasType (m : JVal) (t : String) : Bool :=
  match m.get "type" with
  | .str s => s = t
  | _ => false

/-- The structure's first `provider_references` location, per the spec:
the first located entry of the list, when the structure carries one. -/
def specFirstRefLocation (struct : JVal) : Option JVal :=
  match struct.get "provider_references" with
  | .arr refs =>
    ((refs.filter fun r => r.contains "location").head?).map
      fun r => r.get "location"
  | _ => none

/-- The spec's in-network descriptor for the `j`-th located file of the
`i`-th reporting structure: kind `in_network_rates`, the structure's plan
metadata, and the structure's first provider-references location attached
as `provider_reference_url` when present. -/
def specDescriptor (i j : Nat) (struct file_info : JVal) : JVal :=
  JVal.obj ([("url", file_info.get "location"),
    ("type", .str "in_network_rates"),
    ("plan_name", struct.getD "plan_name" (.str ("plan_" ++ toString i))),
    ("plan_id", struct.get "plan_id"),
    ("plan_market_type", struct.get "plan_market_type"),
    ("description", file_info.getD "description" (.str "")),
    ("reporting_structure_index", .num i),
    ("file_index", .num j)] ++
    (match specFirstRefLocation struct with
     | some loc => [("provider_reference_url", loc)]
     | none => []))

/-- The spec's in-network descriptors of one reporting structure, in
source order: one per located `in_network_files` element. -/
def specStructureDescs (i : Nat) (struct : JVal) : List JVal :=
  match struct.get "in_network_files" with
  | .arr files =>
    (files.enum.filter fun jf => jf.2.contains "location").map
      fun jf => specDescriptor i jf.1 struct jf.2
  | _ => []

/-- The spec's in-network descriptors of a whole index, in source order. -/
def specInNetworkList (structures : List JVal) : List JVal :=
  (structures.enum.map fun p => specStructureDescs p.1 p.2).flatten

/-- Well-formedness of one reporting structure as far as the resolver's
error-free paths require: a dict whose `in_network_files` (when present)
is a list of dicts and whose `provider_references` (when present) is a
list. -/
def wfStructure (s : JVal) : Bool :=
  match s with
  | .obj _ =>
    (if s.contains "in_network_files" then
      match s.get "in_network_files" with
      | .arr files => files.all JVal.isObj
      | _ => false
     else true) &&
    (if s.contains "provider_references" then
      match s.get "provider_references" with
      | .arr _ => true
      | _ => false
     else true)
  | _ => false

/-! ### Spec-side formulation of the parser's provider-reference emission
(section 4.4 of the specification), for comparison with
`parse_negotiated_rates` -/

/-- Well-formedness of a price entry on the provider-references path: a
dict whose `negotiated_rate` is `null` (skipped) or a number. -/
def wfC3Price (p : JVal) : Bool :=
  match p with
  | .obj _ =>
    (match p.get "negotiated_rate" with
     | .null => true
     | .num _ => true
     | _ => false)
  | _ => false

/-- Well-formedness of a rate group that carries provider references: a
dict with a nonempty `provider_references` list and well-formed prices. -/
def wfC3Group (g : JVal) : Bool :=
  match g with
  | .obj _ =>
    (match g.get "provider_references" with
     | .arr (_ :: _) => true
     | _ => false) &&
    (match g.getD "negotiated_prices" (.arr []) with
     | .arr prices => prices.all wfC3Price
     | _ => false)
  | _ => false

/-- Well-formedness of an in-network item all of whose rate groups carry
provider references. -/
def wfC3Item (item : JVal) : Bool :=
  match item with
  | .obj _ =>
    (match item.getD "negotiated_rates" (.arr []) with
     | .arr groups => groups.all wfC3Group
     | _ => false)
  | _ => false

/-- Well-formedness of one provider-reference table entry: a dict whose
`tin`, when truthy, is itself a dict. -/
def wfProviderInfo (v : JVal) : Bool :=
  match v with
  | .obj _ =>
    (match v.get "tin" with
     | .obj _ => true
     | t => !t.truthy)
  | _ => false

/-- Well-formedness of the loaded provider-reference table. -/
def wfRefTable (table : List (JVal × JVal)) : Bool :=
  table.all fun p => wfProviderInfo p.2

/-- The spec's tuple for one reference id: resolve the id in the table
(an unresolved id yields empty provider info, so all provider fields are
null) and flatten the price entry; no annotation field of any kind is
attached. -/
def specC3Record (table : List (JVal × JVal)) (bc bct desc : JVal)
    (payer : String) (q : Rat)
    (service_codes billing_class negotiated_type expiration_date : JVal)
    (ref : JVal) : JVal :=
  let info := (lookupRef table ref).getD (JVal.obj [])
  JVal.obj [("billing_code", bc), ("billing_code_type", bct),
    ("description", desc), ("negotiated_rate", .num q),
    ("service_codes", service_codes), ("billing_class", billing_class),
    ("negotiated_type", negotiated_type),
    ("expiration_date", expiration_date),
    ("provider_npi", info.get "npi"),
    ("provider_name", info.get "provider_group_name"),
    ("provider_tin",
      if (info.get "tin").truthy then (info.get "tin").get "value"
      else .null),
    ("payer", .str payer)]

/-- The spec's tuples of one price entry: none for a null rate, exactly
one per reference id otherwise. -/
def specC3PriceTuples (table : List (JVal × JVal)) (bc bct desc : JVal)
    (payer : String) (refs : List JVal) (price : JVal) : List JVal :=
  match price.get "negotiated_rate" with
  | .num q =>
    refs.map (specC3Record table bc bct desc payer q
      (price.getD "service_code" (.arr []))
      (price.getD "billing_class" (.str ""))
      (price.getD "negotiated_type" (.str ""))
      (price.getD "expiration_date" (.str "")))
  | _ => []

/-- The spec's tuples of one rate group carrying provider references. -/
def specC3GroupTuples (table : List (JVal × JVal)) (bc bct desc : JVal)
    (payer : String) (g : JVal) : List JVal :=
  let refs : List JVal :=
    match g.get "provider_references" with
    | .arr rs => rs
    | _ => []
  match g.getD "negotiated_prices" (.arr []) with
  | .arr prices =>
    (prices.map (specC3PriceTuples table bc bct desc payer refs)).flatten
  | _ => []

/-- The spec's tuples of one in-network item. -/
def specC3Tuples (table : List (JVal × JVal)) (item : JVal)
    (payer : String) : List JVal :=
  match item.getD "negotiated_rates" (.arr []) with
  | .arr groups =>
    (groups.map (specC3GroupTuples table (item.get "billing_code")
      (item.getD "billing_code_type" (.str ""))
      (item.getD "description" (.str "")) payer)).flatten
  | _ => []

/-! ### Concrete sample values used by witnesses and counterexamples -/

/-- A stand-in `uuid5` hash for concrete evaluations. -/
def sampleUuid5 : String → String → String := fun _ _ => "u"

/-- A stand-in note renderer for concrete evaluations. -/
def sampleRender : ValidationNote → String := fun _ => ""

/-- A normalized row as in spec scenario 1. -/
def sampleNorm : NormalizedRec :=
  { service_code := "99213", description := "", billing_code_type := "CPT",
    negotiated_rate := 125, billing_class := "professional",
    negotiated_type := none, service_codes := ["11"],
    expiration_date := none, provider_npi := .one "1234567890",
    provider_tin := some "12-3456789", provider_name := none }

/-- The constant normalizer feeding `sampleNorm` for every raw record. -/
def sampleNormTic : Unit → Option NormalizedRec := fun _ => some sampleNorm

/-! ## Theorems -/

/-- C1: identity generation is deterministic and pure.  Every identifier
is UUID5 under the namespace `UUID5(DNS, "healthcare.<category>")` of the
components joined with `"|"` — with the rate component formatted with two
fractional digits — and of nothing else: the four generators are plain
functions of exactly these components (no timestamp or randomness occurs
in their embedding), so identical normalized inputs yield identical
`payer_uuid`, `organization_uuid`, `provider_uuid` and `rate_uuid` on any
two runs.  The empty string is a valid component (all component strings
are universally quantified, including `""`). -/
theorem uuid_identity_pipe_joined_components :
    ∀ (uuid5 : String → String → String) (p o sc : String) (r : Rat)
      (e n par tin orgn npi : String),
      rate_uuid uuid5 p o sc r e =
        uuid5 (uuid5 NAMESPACE_DNS "healthcare.rates")
          (p ++ "|" ++ o ++ "|" ++ sc ++ "|" ++ fmt2 r ++ "|" ++ e) ∧
      payer_uuid uuid5 n par =
        uuid5 (uuid5 NAMESPACE_DNS "healthcare.payers") (n ++ "|" ++ par) ∧
      organization_uuid uuid5 tin orgn =
        uuid5 (uuid5 NAMESPACE_DNS "healthcare.organizations")
          (tin ++ "|" ++ orgn) ∧
      provider_uuid uuid5 npi =
        uuid5 (uuid5 NAMESPACE_DNS "healthcare.providers") npi := by
  intro uuid5 p o sc r e n par tin orgn npi
  refine ⟨?_, ?_, ?_, ?_⟩ <;> rfl

/-- C5: the quality envelope.  `is_validated` clears exactly when a
required field is falsy, `has_conflicts` sets exactly when the rate lies
outside (0, 10000], the confidence score equals the clamped
`1 - 0.3·[missing] - 0.2·[outside] - 0.1·[no NPIs]`, the notes join with
`"; "`, and a missing required field forces `is_validated = false` with
score at most 0.7. -/
theorem quality_envelope_characterization :
    ∀ (render : ValidationNote → String) (r : VRecord),
      (validate_rate_record render r).is_validated =
        (missingRequired r).isEmpty ∧
      (validate_rate_record render r).has_conflicts =
        (r.negotiated_rate.getD 0 ≤ 0 || r.negotiated_rate.getD 0 > 10000) ∧
      (validate_rate_record render r).confidence_score =
        max 0 (min 1 (1 - (if (missingRequired r).isEmpty then 0 else 3/10)
          - (if r.negotiated_rate.getD 0 ≤ 0 ||
               r.negotiated_rate.getD 0 > 10000 then (2 : Rat)/10 else 0)
          - (if r.npi_list.isEmpty then (1 : Rat)/10 else 0))) ∧
      (validate_rate_record render r).validation_notes =
        String.intercalate "; "
          (((if (missingRequired r).isEmpty then []
             else [ValidationNote.missingRequiredFields (missingRequired r)]) ++
            (if r.negotiated_rate.getD 0 ≤ 0 ||
               r.negotiated_rate.getD 0 > 10000 then
              [ValidationNote.unusualRateValue (r.negotiated_rate.getD 0)]
             else []) ++
            (if r.npi_list.isEmpty then [ValidationNote.noNpisAssociated]
             else [])).map render) ∧
      ((missingRequired r) ≠ [] →
        (validate_rate_record render r).is_validated = false ∧
        (validate_rate_record render r).confidence_score ≤ 7/10) := by
  intro render r
  cases hm : (missingRequired r).isEmpty <;>
    cases hc : (r.negotiated_rate.getD 0 ≤ 0 ||
      r.negotiated_rate.getD 0 > 10000) <;>
    cases hn : r.npi_list.isEmpty <;>
    simp [validate_rate_record, hm, hc, hn, List.isEmpty_iff] <;>
    norm_num <;>
    exact List.isEmpty_iff.mp hm

/-- Witness for C5 at a concrete record with an empty `service_code`. -/
theorem quality_envelope_characterization_witness :
    (validate_rate_record (fun _ => "")
      ⟨some "", some 5, some "p", some "o", []⟩).is_validated = false ∧
    (validate_rate_record (fun _ => "")
      ⟨some "", some 5, some "p", some "o", []⟩).confidence_score ≤ 7/10 :=
  (quality_envelope_characterization (fun _ => "")
    ⟨some "", some 5, some "p", some "o", []⟩).2.2.2.2 (by decide)

/-- C8: contrary to the claim, `Bcbs_IlHandler.parse_in_network` never
returns a list of adapted records: every call raises (`NameError` on the
undefined global `patterns` for dict records, `AttributeError` before
that for non-dict input). -/
theorem bcbs_il_parse_always_raises :
    ∀ record : JVal, ∃ e : PyErr,
      bcbs_il_parse_in_network record = .error e := by
  intro record
  cases record <;> exact ⟨_, rfl⟩

/-- Inversion for the normalizer: a successful row comes from a
whitelisted string billing code and carries exactly the three output
fields. -/
theorem normalize_record_ok_some (record : JVal) (wl : List String)
    (payer : String) (out : JVal)
    (h : normalize_record record wl payer = .ok (some out)) :
    ∃ s q, wl.contains s = true ∧
      out = JVal.obj [("service_code", .str s), ("negotiated_rate", .num q),
        ("payer", .str payer)] := by
  simp only [normalize_record] at h
  cases hbc : pyOr (record.get "billing_code") (record.get "cpt_code") with
  | null => simp [hbc, JVal.truthy] at h
  | bool b => rw [hbc] at h; cases b <;> simp [JVal.truthy] at h
  | num q =>
    rw [hbc] at h
    by_cases hq : q = 0 <;> simp [JVal.truthy, hq] at h
  | arr xs => rw [hbc] at h; cases xs <;> simp [JVal.truthy] at h
  | obj kvs => rw [hbc] at h; cases kvs <;> simp [JVal.truthy] at h
  | str s =>
    rw [hbc] at h
    by_cases hs : s = ""
    · simp [JVal.truthy, hs] at h
    · rw [if_neg (by simp [JVal.truthy, hs])] at h
      have h : (if ¬ wl.contains s = true then
          (Except.ok none : Except PyErr (Option JVal))
        else do
          let rate ← extractRate record
          buildNormalizedRow (JVal.str s) rate payer) = Except.ok (some out) := h
      by_cases hw : s ∈ wl
      · rw [if_neg (by simp [hw])] at h
        cases her : extractRate record with
        | error e => rw [her] at h; simp [Bind.bind, Except.bind] at h
        | ok rate =>
          rw [her] at h
          simp only [Bind.bind, Except.bind] at h
          cases rate with
          | null => simp [buildNormalizedRow] at h
          | bool b =>
            simp [buildNormalizedRow, pyFloat, Bind.bind, Except.bind,
              pure, Except.pure] at h
            exact ⟨s, _, by simpa using hw, h.symm⟩
          | num q =>
            simp [buildNormalizedRow, pyFloat, Bind.bind, Except.bind,
              pure, Except.pure] at h
            exact ⟨s, q, by simpa using hw, h.symm⟩
          | str s' =>
            cases hf : parsePyFloat? s' with
            | none =>
              simp [buildNormalizedRow, pyFloat, hf, Bind.bind, Except.bind] at h
            | some q =>
              simp [buildNormalizedRow, pyFloat, hf, Bind.bind, Except.bind,
                pure, Except.pure] at h
              exact ⟨s, q, by simpa using hw, h.symm⟩
          | arr xs =>
            simp [buildNormalizedRow, pyFloat, Bind.bind, Except.bind] at h
          | obj kvs =>
            simp [buildNormalizedRow, pyFloat, Bind.bind, Except.bind] at h
      · rw [if_pos (by simp [hw])] at h
        simp at h

/-- C7: whitelist filtering.  Whenever normalization succeeds, the output
row's `service_code` is a whitelisted string, so no row with a
`service_code` outside a nonempty whitelist is ever produced; and a
record with no billing code at all (both `billing_code` and the
`cpt_code` fallback absent) is always dropped. -/
theorem normalize_record_whitelist_and_missing_code :
    ∀ (record : JVal) (wl : List String) (payer : String),
      (∀ (c : String) (out : JVal), wl ≠ [] → ¬ wl.contains c = true →
        normalize_record record wl payer = .ok (some out) →
        out.get "service_code" ≠ .str c) ∧
      (record.get "billing_code" = .null → record.get "cpt_code" = .null →
        normalize_record record wl payer = .ok none) := by
  intro record wl payer
  constructor
  · intro c out _ hc h
    obtain ⟨s, q, hs, rfl⟩ := normalize_record_ok_some record wl payer out h
    simp [JVal.get, JVal.find?]
    intro heq
    exact hc (heq ▸ hs)
  · intro h1 h2
    simp [normalize_record, pyOr, h1, h2, JVal.truthy]

/-- Witness for C7: the code `"70450"` is outside the whitelist
`["99213"]`, and the produced row for `"99213"` indeed does not carry it;
an empty record is dropped. -/
theorem normalize_record_whitelist_and_missing_code_witness :
    (JVal.obj [("service_code", .str "99213"), ("negotiated_rate", .num 1),
      ("payer", .str "P")]).get "service_code" ≠ .str "70450" ∧
    normalize_record (JVal.obj []) ["99213"] "P" = .ok none :=
  ⟨(normalize_record_whitelist_and_missing_code
      (JVal.obj [("billing_code", .str "99213"), ("negotiated_rate", .num 1)])
      ["99213"] "P").1 "70450"
      (JVal.obj [("service_code", .str "99213"), ("negotiated_rate", .num 1),
        ("payer", .str "P")])
      (by simp) (by decide) rfl,
   (normalize_record_whitelist_and_missing_code (JVal.obj []) ["99213"]
      "P").2 rfl rfl⟩

/-- Counterexample to C9 as stated: normalization succeeds on this raw
record, yet re-normalizing the produced row drops it (the row carries
`service_code`, not `billing_code`), so
`normalize(normalize(x)) ≠ normalize(x)`. -/
theorem normalize_record_not_idempotent :
    normalize_record (JVal.obj [("billing_code", .str "99213"),
        ("negotiated_rate", .num 1)]) ["99213"] "P" =
      .ok (some (JVal.obj [("service_code", .str "99213"),
        ("negotiated_rate", .num 1), ("payer", .str "P")])) ∧
    normalize_record (JVal.obj [("service_code", .str "99213"),
        ("negotiated_rate", .num 1), ("payer", .str "P")]) ["99213"] "P" =
      .ok none ∧
    (Except.ok (some (JVal.obj [("service_code", .str "99213"),
        ("negotiated_rate", .num 1), ("payer", .str "P")])) :
        Except PyErr (Option JVal)) ≠ .ok none := by
  refine ⟨rfl, rfl, ?_⟩
  simp

/-- C9 (amended): the normalizer is never idempotent on a successful
input — re-applying it to any row it produced yields a drop, because the
row exposes `service_code` while the normalizer looks for `billing_code`
or `cpt_code`. -/
theorem normalize_record_renormalization_drops :
    ∀ (record : JVal) (wl : List String) (payer : String) (out : JVal),
      normalize_record record wl payer = .ok (some out) →
      normalize_record out wl payer = .ok none := by
  intro record wl payer out h
  obtain ⟨s, q, _, rfl⟩ := normalize_record_ok_some record wl payer out h
  rfl

/-- Witness for the amended C9 at a concrete normalized row. -/
theorem normalize_record_renormalization_drops_witness :
    normalize_record (JVal.obj [("service_code", .str "99213"),
      ("negotiated_rate", .num 1), ("payer", .str "P")]) ["99213"] "P" =
      .ok none :=
  normalize_record_renormalization_drops
    (JVal.obj [("billing_code", .str "99213"), ("negotiated_rate", .num 1)])
    ["99213"] "P" _ rfl

/-- Every rate row in the batch state after folding the normalized stream
is either inherited from the initial state or is a freshly created record
paired with its own (validating) quality envelope. -/
theorem mem_rates_foldl (uuid5 : String → String → String)
    (render : ValidationNote → String) (payerUuid : String)
    (ns : List NormalizedRec) (st : Batches) (rq : RateRecord × QualityFlags)
    (h : rq ∈ (ns.foldl (processNormalized uuid5 render payerUuid) st).rates) :
    rq ∈ st.rates ∨ (rq.2 = validate_rate_record render (vrecordOf rq.1) ∧
      rq.2.is_validated = true) := by
  induction ns generalizing st with
  | nil => exact .inl h
  | cons hd tl ih =>
    rcases ih _ h with hmem | hnew
    · unfold processNormalized at hmem
      by_cases hv : (validate_rate_record render
          (vrecordOf (create_rate_record uuid5 payerUuid hd))).is_validated
      · simp only [hv, if_true] at hmem
        rcases List.mem_append.mp hmem with hold | hone
        · exact .inl hold
        · rcases List.mem_singleton.mp hone with rfl
          exact .inr ⟨rfl, hv⟩
      · simp only [hv, if_false] at hmem
        exact .inl hmem
    · exact .inr hnew

/-- Folding the raw stream through normalization equals folding the
filtered-and-normalized stream. -/
theorem foldl_raw_eq_foldl_filterMap {Raw : Type}
    (uuid5 : String → String → String) (render : ValidationNote → String)
    (payerUuid : String) (normTic : Raw → Option NormalizedRec) :
    ∀ (raws : List Raw) (st : Batches),
      raws.foldl (fun st raw =>
        match normTic raw with
        | none => st
        | some n => processNormalized uuid5 render payerUuid st n) st =
      (raws.filterMap normTic).foldl
        (processNormalized uuid5 render payerUuid) st := by
  intro raws
  induction raws with
  | nil => intro st; rfl
  | cons hd tl ih =>
    intro st
    cases hn : normTic hd <;>
      simp [List.filterMap_cons, hn, ih]

/-- Rows failing validation are identity steps of the fold: filtering
them out of the normalized stream changes nothing. -/
theorem foldl_filter_validated (uuid5 : String → String → String)
    (render : ValidationNote → String) (payerUuid : String) :
    ∀ (ns : List NormalizedRec) (st : Batches),
      ns.foldl (processNormalized uuid5 render payerUuid) st =
      (ns.filter fun n => (validate_rate_record render
        (vrecordOf (create_rate_record uuid5 payerUuid n))).is_validated).foldl
        (processNormalized uuid5 render payerUuid) st := by
  intro ns
  induction ns with
  | nil => intro st; rfl
  | cons hd tl ih =>
    intro st
    by_cases hv : (validate_rate_record render
        (vrecordOf (create_rate_record uuid5 payerUuid hd))).is_validated
    · simp [List.filter_cons, hv, ih]
    · have hstep : processNormalized uuid5 render payerUuid st hd = st := by
        unfold processNormalized
        simp [hv]
      simp [List.filter_cons, hv, ih, hstep]

/-- C10: only validated rows are emitted.  Every rate row appended to the
output batches has `is_validated = true`, and a row failing validation is
discarded entirely — the whole batch state (rates, organizations,
providers, dedup set) equals the one obtained from the stream with the
failing rows filtered out, so no organization or provider record derived
from a failing row reaches any output batch either. -/
theorem only_validated_rows_reach_output {Raw : Type} :
    ∀ (uuid5 : String → String → String) (render : ValidationNote → String)
      (payerUuid : String) (normTic : Raw → Option NormalizedRec)
      (maxRecords : Option Nat) (raws : List Raw),
      (∀ rq ∈ (process_mrf_file uuid5 render payerUuid normTic maxRecords
        raws).rates, rq.2.is_validated = true) ∧
      process_mrf_file uuid5 render payerUuid normTic maxRecords raws =
        (((truncateRecords maxRecords raws).filterMap normTic).filter
          fun n => (validate_rate_record render
            (vrecordOf (create_rate_record uuid5 payerUuid n))).is_validated).foldl
          (processNormalized uuid5 render payerUuid) Batches.initial := by
  intro uuid5 render payerUuid normTic maxRecords raws
  constructor
  · intro rq h
    rw [process_mrf_file,
      foldl_raw_eq_foldl_filterMap uuid5 render payerUuid normTic] at h
    rcases mem_rates_foldl uuid5 render payerUuid _ _ rq h with hin | hnew
    · simp [Batches.initial] at hin
    · exact hnew.2
  · rw [process_mrf_file,
      foldl_raw_eq_foldl_filterMap uuid5 render payerUuid normTic,
      foldl_filter_validated uuid5 render payerUuid]

/-- Witness for C10 at a concrete one-record stream. -/
theorem only_validated_rows_reach_output_witness :
    (∀ rq ∈ (process_mrf_file sampleUuid5 sampleRender "P" sampleNormTic
      none [()]).rates, rq.2.is_validated = true) ∧
    process_mrf_file sampleUuid5 sampleRender "P" sampleNormTic none [()] =
      (((truncateRecords none [()]).filterMap sampleNormTic).filter
        fun n => (validate_rate_record sampleRender
          (vrecordOf (create_rate_record sampleUuid5 "P" n))).is_validated).foldl
        (processNormalized sampleUuid5 sampleRender "P")
        Batches.initial :=
  only_validated_rows_reach_output sampleUuid5 sampleRender "P"
    sampleNormTic none [()]

/-- C6: every rate row that reaches the output with its quality envelope
attached has its negotiated rate in (0, 10000], or else its
`quality_flags.has_conflicts` is set — out-of-range rates are flagged,
never silently emitted unflagged. -/
theorem output_rates_in_range_or_flagged {Raw : Type} :
    ∀ (uuid5 : String → String → String) (render : ValidationNote → String)
      (payerUuid : String) (normTic : Raw → Option NormalizedRec)
      (maxRecords : Option Nat) (raws : List Raw)
      (rq : RateRecord × QualityFlags),
      rq ∈ (process_mrf_file uuid5 render payerUuid normTic maxRecords
        raws).rates →
      (0 < rq.1.negotiated_rate ∧ rq.1.negotiated_rate ≤ 10000) ∨
      rq.2.has_conflicts = true := by
  intro uuid5 render payerUuid normTic maxRecords raws rq h
  rw [process_mrf_file,
    foldl_raw_eq_foldl_filterMap uuid5 render payerUuid normTic] at h
  rcases mem_rates_foldl uuid5 render payerUuid _ _ rq h with hin | hnew
  · simp [Batches.initial] at hin
  · by_cases hr : 0 < rq.1.negotiated_rate ∧ rq.1.negotiated_rate ≤ 10000
    · exact .inl hr
    · refine .inr ?_
      rw [hnew.1]
      push_neg at hr
      simp only [validate_rate_record, vrecordOf]
      rcases lt_or_le 0 rq.1.negotiated_rate with hpos | hneg
      · have := hr hpos
        simp [Option.getD]
        right
        linarith
      · simp [Option.getD]
        left
        linarith

/-- Witness for C6: the single emitted row of a concrete stream. -/
theorem output_rates_in_range_or_flagged_witness :
    (0 < (create_rate_record sampleUuid5 "P" sampleNorm).negotiated_rate ∧
      (create_rate_record sampleUuid5 "P" sampleNorm).negotiated_rate ≤
        10000) ∨
    (validate_rate_record sampleRender
      (vrecordOf (create_rate_record sampleUuid5 "P"
        sampleNorm))).has_conflicts = true :=
  output_rates_in_range_or_flagged sampleUuid5 sampleRender "P"
    sampleNormTic none [()]
    (create_rate_record sampleUuid5 "P" sampleNorm,
      validate_rate_record sampleRender
        (vrecordOf (create_rate_record sampleUuid5 "P" sampleNorm)))
    (by decide)

/-- A pointwise-successful `mapExcept` is a `map`. -/
theorem mapExcept_ok_of_forall {α β : Type} (f : α → Except PyErr β)
    (g : α → β) :
    ∀ xs : List α, (∀ x ∈ xs, f x = .ok (g x)) →
      mapExcept f xs = .ok (xs.map g) := by
  intro xs
  induction xs with
  | nil => intro _; rfl
  | cons hd tl ih =>
    intro h
    have h1 := h hd (by simp)
    have h2 := ih fun x hx => h x (by simp [hx])
    simp [mapExcept, h1, h2, Bind.bind, Except.bind, pure, Except.pure]

/-- Python `reduceOption` over an `if`-shaped map is a filtered map. -/
theorem reduceOption_map_ite {α β : Type} (p : α → Bool) (f : α → β) :
    ∀ xs : List α,
      (xs.map fun x => if p x then some (f x) else none).reduceOption =
        (xs.filter p).map f := by
  intro xs
  induction xs with
  | nil => rfl
  | cons hd tl ih =>
    by_cases hp : p hd <;>
      simp [List.reduceOption, List.filter_cons, List.filterMap_cons, hp,
        ← ih]

/-- Setting an absent key appends it (CPython dict insertion order). -/
theorem setKey_eq_append (k : String) (v : JVal) :
    ∀ kvs, JVal.find? kvs k = none → JVal.setKey kvs k v = kvs ++ [(k, v)] := by
  intro kvs
  induction kvs with
  | nil => intro _; rfl
  | cons hd tl ih =>
    intro h
    obtain ⟨k', v'⟩ := hd
    rw [JVal.find?] at h
    by_cases hk : k' = k
    · simp [hk] at h
    · rw [if_neg hk] at h
      simp [JVal.setKey, hk, ih h]

/-- The `for`/`break` search for a located reference equals taking the
head of the located sublist. -/
theorem firstProviderRefLocation_eq :
    ∀ refs : List JVal,
      firstProviderRefLocation refs =
        ((refs.filter fun r => r.contains "location").head?).map
          fun r => r.get "location" := by
  intro refs
  induction refs with
  | nil => rfl
  | cons hd tl ih =>
    by_cases hp : hd.contains "location"
    · simp [firstProviderRefLocation, List.findSome?_cons, List.filter_cons,
        hp]
    · simp only [firstProviderRefLocation, List.findSome?_cons,
        List.filter_cons, hp, Bool.false_eq_true, if_false]
      simpa [firstProviderRefLocation] using ih

/-- A key that `in` does not see reads as `None`. -/
theorem contains_eq_false_get (v : JVal) (k : String)
    (h : v.contains k = false) : v.get k = .null := by
  cases v with
  | obj kvs =>
    simp only [JVal.contains] at h
    cases hf : JVal.find? kvs k with
    | none => simp [JVal.get, hf]
    | some v' => rw [hf] at h; simp at h
  | null => rfl
  | bool b => rfl
  | num q => rfl
  | str s => rfl
  | arr xs => rfl

/-- Python `attachProviderRefUrl` under a well-formed `provider_references`
field: append the first located reference's location, if any. -/
theorem attachProviderRefUrl_eq (s : JVal) (base : List (String × JVal))
    (hnp : JVal.find? base "provider_reference_url" = none)
    (hp : (if s.contains "provider_references" then
      match s.get "provider_references" with
      | .arr _ => true
      | _ => false
     else true) = true) :
    attachProviderRefUrl s base = .ok (base ++
      (match specFirstRefLocation s with
       | some loc => [("provider_reference_url", loc)]
       | none => [])) := by
  by_cases hc : s.contains "provider_references" = true
  · rw [if_pos hc] at hp
    cases hg : s.get "provider_references" with
    | arr refs =>
      simp only [attachProviderRefUrl, specFirstRefLocation, hc, hg, if_true]
      rw [firstProviderRefLocation_eq refs]
      cases hh : (refs.filter fun r => r.contains "location").head? with
      | none => simp [hh]
      | some r => simp [hh, setKey_eq_append _ _ base hnp]
    | null => rw [hg] at hp; simp at hp
    | bool b => rw [hg] at hp; simp at hp
    | num q => rw [hg] at hp; simp at hp
    | str s' => rw [hg] at hp; simp at hp
    | obj kvs => rw [hg] at hp; simp at hp
  · have hc' : s.contains "provider_references" = false := by
      simpa using hc
    have hg := contains_eq_false_get s "provider_references" hc'
    simp [attachProviderRefUrl, specFirstRefLocation, hc', hg]

/-- The in-network descriptors of a well-formed structure are exactly the
spec's: one per located file, in order. -/
theorem inNetworkDescriptors_eq (i : Nat) (s : JVal)
    (hwf : wfStructure s = true) :
    inNetworkDescriptors i s
      (s.getD "plan_name" (.str ("plan_" ++ toString i)))
      (s.get "plan_id") (s.get "plan_market_type") =
      .ok (specStructureDescs i s) := by
  cases s with
  | obj kvs =>
    simp only [wfStructure, Bool.and_eq_true] at hwf
    obtain ⟨hwf1, hwf2⟩ := hwf
    by_cases hf : (JVal.obj kvs).contains "in_network_files" = true
    · rw [if_pos hf] at hwf1
      cases hg : (JVal.obj kvs).get "in_network_files" with
      | arr files =>
        rw [hg] at hwf1
        simp only [inNetworkDescriptors, specStructureDescs, hf, hg, if_true]
        rw [mapExcept_ok_of_forall _
          (fun jf => if jf.2.contains "location" then
            some (specDescriptor i jf.1 (JVal.obj kvs) jf.2) else none)
          files.enum ?_]
        · simp [reduceOption_map_ite
            (fun jf : Nat × JVal => jf.2.contains "location")
            (fun jf : Nat × JVal =>
              specDescriptor i jf.1 (JVal.obj kvs) jf.2) files.enum,
            Bind.bind, Except.bind, pure, Except.pure]
        · intro jf hjf
          have hmem : jf.2 ∈ files := List.snd_mem_of_mem_enum hjf
          have hobj : jf.2.isObj = true := by
            have := List.all_eq_true.mp hwf1 jf.2 hmem
            simpa using this
          cases hjv : jf.2 with
          | obj fkvs =>
            simp only
            by_cases hloc : (JVal.obj fkvs).contains "location" = true
            · rw [attachProviderRefUrl_eq (JVal.obj kvs) _ (by simp [JVal.find?])
                (by simpa using hwf2)]
              simp [hloc, hjv, specDescriptor, Bind.bind, Except.bind, pure,
                Except.pure]
            · simp [hloc, hjv, pure, Except.pure]
          | null => rw [hjv] at hobj; simp [JVal.isObj] at hobj
          | bool b => rw [hjv] at hobj; simp [JVal.isObj] at hobj
          | num q => rw [hjv] at hobj; simp [JVal.isObj] at hobj
          | str s' => rw [hjv] at hobj; simp [JVal.isObj] at hobj
          | arr xs => rw [hjv] at hobj; simp [JVal.isObj] at hobj
      | null => rw [hg] at hwf1; simp at hwf1
      | bool b => rw [hg] at hwf1; simp at hwf1
      | num q => rw [hg] at hwf1; simp at hwf1
      | str s' => rw [hg] at hwf1; simp at hwf1
      | obj kvs' => rw [hg] at hwf1; simp at hwf1
    · have hf' : (JVal.obj kvs).contains "in_network_files" = false := by
        simpa using hf
      have hg := contains_eq_false_get _ "in_network_files" hf'
      simp [inNetworkDescriptors, specStructureDescs, hf', hg]
  | null => simp [wfStructure] at hwf
  | bool b => simp [wfStructure] at hwf
  | num q => simp [wfStructure] at hwf
  | str s' => simp [wfStructure] at hwf
  | arr xs => simp [wfStructure] at hwf

/-- Every spec descriptor is an in-network descriptor. -/
theorem hasType_specDescriptor (i j : Nat) (s f : JVal) :
    hasType (specDescriptor i j s f) "in_network_rates" = true := by
  cases hsp : specFirstRefLocation s with
  | none => simp [hasType, specDescriptor, hsp, JVal.get, JVal.find?]
  | some loc => simp [hasType, specDescriptor, hsp, JVal.get, JVal.find?]

/-- Allowed-amount descriptors never survive the in-network filter. -/
theorem allowedAmount_filter_nil (i : Nat) (s pn pid pmt : JVal) :
    (allowedAmountDescriptor i s pn pid pmt).filter
      (fun m => hasType m "in_network_rates") = [] := by
  unfold allowedAmountDescriptor
  by_cases h1 : s.contains "allowed_amount_file" = true
  · simp only [h1, if_true]
    by_cases h2 : (s.get "allowed_amount_file").contains "location" = true
    · simp [h2, hasType, JVal.get, JVal.find?, List.filter]
    · simp [h2]
  · simp [h1]

/-- One well-formed reporting structure yields its located in-network
descriptors followed by its allowed-amount descriptor. -/
theorem processReportingStructure_eq (i : Nat) (s : JVal)
    (hwf : wfStructure s = true) :
    processReportingStructure i s = .ok (specStructureDescs i s ++
      allowedAmountDescriptor i s
        (s.getD "plan_name" (.str ("plan_" ++ toString i)))
        (s.get "plan_id") (s.get "plan_market_type")) := by
  cases s with
  | obj kvs =>
    simp only [processReportingStructure]
    rw [inNetworkDescriptors_eq i _ hwf]
    simp [Bind.bind, Except.bind, pure, Except.pure]
  | null => simp [wfStructure] at hwf
  | bool b => simp [wfStructure] at hwf
  | num q => simp [wfStructure] at hwf
  | str s' => simp [wfStructure] at hwf
  | arr xs => simp [wfStructure] at hwf

/-- Members of the spec's in-network list are in-network descriptors. -/
theorem mem_specStructureDescs_hasType (i : Nat) (s m : JVal)
    (hm : m ∈ specStructureDescs i s) :
    hasType m "in_network_rates" = true := by
  unfold specStructureDescs at hm
  cases hg : s.get "in_network_files" with
  | arr files =>
    rw [hg] at hm
    simp only [List.mem_map] at hm
    obtain ⟨jf, _, rfl⟩ := hm
    exact hasType_specDescriptor i jf.1 s jf.2
  | null => rw [hg] at hm; simp at hm
  | bool b => rw [hg] at hm; simp at hm
  | num q => rw [hg] at hm; simp at hm
  | str s' => rw [hg] at hm; simp at hm
  | obj kvs => rw [hg] at hm; simp at hm

/-- C2 (amended): for a `reporting_structure` index whose structures are
well-formed, the resolver succeeds and its `in_network_rates` descriptors
are exactly one per (structure, *located* `in_network_files` element)
pair, in source order, with the structure's first provider-references
location attached as `provider_reference_url`; an index document carrying
none of the three magic keys fails with the unknown-index-shape
`ValueError` and yields no descriptors.  (As stated the claim is refuted
by an `in_network_files` element without a `location` key, which yields
no descriptor — see the counterexample.) -/
theorem toc_resolver_per_pair_and_unknown_shape
    (doc bad : JVal) (structures : List JVal)
    (hdoc : doc.get "reporting_structure" = .arr structures)
    (hdocc : doc.contains "reporting_structure" = true)
    (hwf : structures.all wfStructure = true)
    (hbadObj : bad.isObj = true)
    (hbad : (bad.contains "reporting_structure" || bad.contains "blobs" ||
      bad.contains "in_network_files") = false) :
    (∃ mrfs, list_mrf_blobs_enhanced doc = .ok mrfs ∧
      mrfs.filter (fun m => hasType m "in_network_rates") =
        specInNetworkList structures) ∧
    list_mrf_blobs_enhanced bad = .error .valueError := by
  constructor
  · cases doc with
    | obj kvs =>
      refine ⟨(structures.enum.map fun p => specStructureDescs p.1 p.2 ++
        allowedAmountDescriptor p.1 p.2
          (p.2.getD "plan_name" (.str ("plan_" ++ toString p.1)))
          (p.2.get "plan_id") (p.2.get "plan_market_type")).flatten, ?_, ?_⟩
      · simp only [list_mrf_blobs_enhanced, hdocc, if_true, hdoc]
        rw [mapExcept_ok_of_forall _ (fun p : Nat × JVal =>
          specStructureDescs p.1 p.2 ++ allowedAmountDescriptor p.1 p.2
            (p.2.getD "plan_name" (.str ("plan_" ++ toString p.1)))
            (p.2.get "plan_id") (p.2.get "plan_market_type"))
          structures.enum ?_]
        · simp [Bind.bind, Except.bind, pure, Except.pure]
        · intro p hp
          exact processReportingStructure_eq p.1 p.2
            (List.all_eq_true.mp hwf p.2 (List.snd_mem_of_mem_enum hp))
      · rw [List.filter_flatten]
        unfold specInNetworkList
        congr 1
        rw [List.map_map]
        refine List.map_congr_left ?_
        intro p _
        simp only [Function.comp]
        rw [List.filter_append, allowedAmount_filter_nil, List.append_nil,
          List.filter_eq_self.mpr]
        intro m hm
        exact mem_specStructureDescs_hasType p.1 p.2 m hm
    | null => simp [JVal.contains] at hdocc
    | bool b => simp [JVal.contains] at hdocc
    | num q => simp [JVal.contains] at hdocc
    | str s' => simp [JVal.contains] at hdocc
    | arr xs => simp [JVal.contains] at hdocc
  · cases bad with
    | obj kvsB =>
      simp only [Bool.or_eq_false_iff] at hbad
      simp [list_mrf_blobs_enhanced, hbad.1.1, hbad.1.2, hbad.2]
    | null => simp [JVal.isObj] at hbadObj
    | bool b => simp [JVal.isObj] at hbadObj
    | num q => simp [JVal.isObj] at hbadObj
    | str s' => simp [JVal.isObj] at hbadObj
    | arr xs => simp [JVal.isObj] at hbadObj

/-- Witness for C2 (amended) at a one-structure, one-located-file index
and a magic-key-free document. -/
theorem toc_resolver_per_pair_and_unknown_shape_witness :
    (∃ mrfs, list_mrf_blobs_enhanced (JVal.obj [("reporting_structure",
        .arr [.obj [("plan_name", .str "Acme Gold"),
          ("in_network_files", .arr [.obj [("location", .str "https://rates")]]),
          ("provider_references", .arr [.obj [("location", .str "https://prov")]])]])]) =
        .ok mrfs ∧
      mrfs.filter (fun m => hasType m "in_network_rates") =
        specInNetworkList [.obj [("plan_name", .str "Acme Gold"),
          ("in_network_files", .arr [.obj [("location", .str "https://rates")]]),
          ("provider_references", .arr [.obj [("location", .str "https://prov")]])]]) ∧
    list_mrf_blobs_enhanced (JVal.obj [("foo", .null)]) =
      .error .valueError :=
  toc_resolver_per_pair_and_unknown_shape
    (JVal.obj [("reporting_structure",
      .arr [.obj [("plan_name", .str "Acme Gold"),
        ("in_network_files", .arr [.obj [("location", .str "https://rates")]]),
        ("provider_references", .arr [.obj [("location", .str "https://prov")]])]])])
    (JVal.obj [("foo", .null)])
    [.obj [("plan_name", .str "Acme Gold"),
      ("in_network_files", .arr [.obj [("location", .str "https://rates")]]),
      ("provider_references", .arr [.obj [("location", .str "https://prov")]])]]
    rfl rfl rfl rfl rfl

/-- Counterexample to C2 as stated: an index with exactly one (structure,
`in_network_files` element) pair whose element carries no `location`
yields zero descriptors, not exactly one. -/
theorem toc_resolver_unlocated_file_counterexample :
    list_mrf_blobs_enhanced (JVal.obj [("reporting_structure",
      .arr [.obj [("in_network_files", .arr [.obj []])]])]) = .ok [] ∧
    (JVal.obj [("in_network_files", .arr [.obj []])]).get
      "in_network_files" = .arr [.obj []] := by
  constructor <;> rfl

/-- Python `d.get(k, default)` agrees with `d.get(k)` whenever the latter is not
`None`. -/
theorem getD_eq_get_of_ne_null (v : JVal) (k : String) (d : JVal)
    (h : v.get k ≠ .null) : v.getD k d = v.get k := by
  cases v with
  | obj kvs =>
    cases hf : JVal.find? kvs k with
    | none => simp [JVal.get, hf] at h
    | some w => simp [JVal.get, JVal.getD, hf]
  | null => simp [JVal.get] at h
  | bool b => simp [JVal.get] at h
  | num q => simp [JVal.get] at h
  | str s => simp [JVal.get] at h
  | arr xs => simp [JVal.get] at h

/-- A resolved table entry satisfies the table's well-formedness. -/
theorem wf_of_lookupRef (table : List (JVal × JVal)) (ref info : JVal)
    (htab : wfRefTable table = true)
    (hl : lookupRef table ref = some info) : wfProviderInfo info = true := by
  unfold lookupRef at hl
  cases hf : table.find? (fun p => JVal.jbeq p.1 ref) with
  | none => rw [hf] at hl; simp at hl
  | some p =>
    rw [hf] at hl
    simp at hl
    have hmem := List.mem_of_find?_eq_some hf
    have := List.all_eq_true.mp htab p hmem
    rwa [hl] at this

/-- Python `_create_rate_record` on a looked-up (or defaulted-empty) provider
info equals the spec's tuple for that reference id. -/
theorem createRateRecord_eq (table : List (JVal × JVal))
    (htab : wfRefTable table = true) (bc bct desc : JVal) (q : Rat)
    (sc bcl nt ed : JVal) (payer : String) (ref : JVal) :
    createRateRecord bc bct desc (.num q) sc bcl nt ed
      ((lookupRef table ref).getD (JVal.obj [])) payer =
      .ok (specC3Record table bc bct desc payer q sc bcl nt ed ref) := by
  cases hl : lookupRef table ref with
  | none =>
    simp [createRateRecord, specC3Record, hl, JVal.get, JVal.find?,
      JVal.truthy, pyFloat, Bind.bind, Except.bind, pure, Except.pure]
  | some info =>
    have hwf := wf_of_lookupRef table ref info htab hl
    cases info with
    | obj ikvs =>
      simp only [hl, Option.getD_some]
      simp only [wfProviderInfo] at hwf
      cases ht : (JVal.obj ikvs).get "tin" with
      | obj tkvs =>
        by_cases htr : (JVal.obj tkvs).truthy = true
        · simp [createRateRecord, specC3Record, hl, ht, htr, pyFloat,
            Bind.bind, Except.bind, pure, Except.pure]
        · have htr' : (JVal.obj tkvs).truthy = false := by simpa using htr
          simp [createRateRecord, specC3Record, hl, ht, htr', pyFloat,
            Bind.bind, Except.bind, pure, Except.pure]
      | null =>
        simp [createRateRecord, specC3Record, hl, ht, JVal.truthy, pyFloat,
          Bind.bind, Except.bind, pure, Except.pure]
      | bool b =>
        rw [ht] at hwf
        have hb : b = false := by
          cases b
          · rfl
          · simp [JVal.truthy] at hwf
        subst hb
        simp [createRateRecord, specC3Record, hl, ht, JVal.truthy, pyFloat,
          Bind.bind, Except.bind, pure, Except.pure]
      | num q' =>
        rw [ht] at hwf
        have hq : q' = 0 := by
          by_contra hq
          simp [JVal.truthy, hq] at hwf
        subst hq
        simp [createRateRecord, specC3Record, hl, ht, JVal.truthy, pyFloat,
          Bind.bind, Except.bind, pure, Except.pure]
      | str s =>
        rw [ht] at hwf
        have hs : s = "" := by
          by_contra hs
          simp [JVal.truthy, hs] at hwf
        subst hs
        simp [createRateRecord, specC3Record, hl, ht, JVal.truthy, pyFloat,
          Bind.bind, Except.bind, pure, Except.pure]
      | arr xs =>
        rw [ht] at hwf
        have hx : xs = [] := by
          cases xs
          · rfl
          · simp [JVal.truthy] at hwf
        subst hx
        simp [createRateRecord, specC3Record, hl, ht, JVal.truthy, pyFloat,
          Bind.bind, Except.bind, pure, Except.pure]
    | null => simp [wfProviderInfo] at hwf
    | bool b => simp [wfProviderInfo] at hwf
    | num q' => simp [wfProviderInfo] at hwf
    | str s => simp [wfProviderInfo] at hwf
    | arr xs => simp [wfProviderInfo] at hwf

/-- One well-formed price entry on the provider-references path emits the
spec's tuples: none for a null rate, one per reference id otherwise. -/
theorem parsePriceItem_refs_eq (table : List (JVal × JVal))
    (htab : wfRefTable table = true) (bc bct desc : JVal) (payer : String)
    (r : JVal) (rs : List JVal) (pgs : JVal) (price : JVal)
    (hwf : wfC3Price price = true) :
    parsePriceItem table bc bct desc payer (.arr (r :: rs)) pgs price =
      .ok (specC3PriceTuples table bc bct desc payer (r :: rs) price) := by
  cases price with
  | obj pkvs =>
    simp only [wfC3Price] at hwf
    cases hr : (JVal.obj pkvs).get "negotiated_rate" with
    | null => simp [parsePriceItem, specC3PriceTuples, hr]
    | num q =>
      simp only [parsePriceItem, specC3PriceTuples, hr, JVal.truthy,
        List.isEmpty_cons, Bool.not_false, if_true]
      rw [mapExcept_ok_of_forall _
        (specC3Record table bc bct desc payer q
          ((JVal.obj pkvs).getD "service_code" (.arr []))
          ((JVal.obj pkvs).getD "billing_class" (.str ""))
          ((JVal.obj pkvs).getD "negotiated_type" (.str ""))
          ((JVal.obj pkvs).getD "expiration_date" (.str "")))
        (r :: rs) ?_]
      · intro x _
        exact createRateRecord_eq table htab bc bct desc q _ _ _ _ payer x
    | bool b => rw [hr] at hwf; simp at hwf
    | str s => rw [hr] at hwf; simp at hwf
    | arr xs => rw [hr] at hwf; simp at hwf
    | obj kvs' => rw [hr] at hwf; simp at hwf
  | null => simp [wfC3Price] at hwf
  | bool b => simp [wfC3Price] at hwf
  | num q => simp [wfC3Price] at hwf
  | str s => simp [wfC3Price] at hwf
  | arr xs => simp [wfC3Price] at hwf

/-- One well-formed rate group emits the spec's tuples. -/
theorem parseRateGroup_eq (table : List (JVal × JVal))
    (htab : wfRefTable table = true) (bc bct desc : JVal) (payer : String)
    (g : JVal) (hwf : wfC3Group g = true) :
    parseRateGroup table bc bct desc payer g =
      .ok (specC3GroupTuples table bc bct desc payer g) := by
  cases g with
  | obj gkvs =>
    simp only [wfC3Group, Bool.and_eq_true] at hwf
    obtain ⟨hwf1, hwf2⟩ := hwf
    cases hpr : (JVal.obj gkvs).get "provider_references" with
    | arr refs =>
      cases refs with
      | nil => rw [hpr] at hwf1; simp at hwf1
      | cons r rs =>
        have hgetd : (JVal.obj gkvs).getD "provider_references" (.arr []) =
            .arr (r :: rs) := by
          rw [getD_eq_get_of_ne_null _ _ _ (by simp [hpr]), hpr]
        cases hpp : (JVal.obj gkvs).getD "negotiated_prices" (.arr []) with
        | arr prices =>
          rw [hpp] at hwf2
          simp only [parseRateGroup, specC3GroupTuples, hgetd, hpp, hpr]
          rw [mapExcept_ok_of_forall _
            (specC3PriceTuples table bc bct desc payer (r :: rs)) prices ?_]
          · simp [Bind.bind, Except.bind, pure, Except.pure]
          · intro p hp
            exact parsePriceItem_refs_eq table htab bc bct desc payer r rs _
              p (List.all_eq_true.mp hwf2 p hp)
        | null => rw [hpp] at hwf2; simp at hwf2
        | bool b => rw [hpp] at hwf2; simp at hwf2
        | num q => rw [hpp] at hwf2; simp at hwf2
        | str s => rw [hpp] at hwf2; simp at hwf2
        | obj kvs' => rw [hpp] at hwf2; simp at hwf2
    | null => rw [hpr] at hwf1; simp at hwf1
    | bool b => rw [hpr] at hwf1; simp at hwf1
    | num q => rw [hpr] at hwf1; simp at hwf1
    | str s => rw [hpr] at hwf1; simp at hwf1
    | obj kvs' => rw [hpr] at hwf1; simp at hwf1
  | null => simp [wfC3Group] at hwf
  | bool b => simp [wfC3Group] at hwf
  | num q => simp [wfC3Group] at hwf
  | str s => simp [wfC3Group] at hwf
  | arr xs => simp [wfC3Group] at hwf

/-- The spec tuple never carries a `missing_provider_ref` field. -/
theorem specC3Record_no_annotation (table : List (JVal × JVal))
    (bc bct desc : JVal) (payer : String) (q : Rat)
    (sc bcl nt ed ref : JVal) :
    (specC3Record table bc bct desc payer q sc bcl nt ed
      ref).contains "missing_provider_ref" = false := by
  simp [specC3Record, JVal.contains, JVal.find?]

/-- Every member of the spec's emission is a spec tuple. -/
theorem mem_specC3Tuples (table : List (JVal × JVal)) (item : JVal)
    (payer : String) (m : JVal)
    (hm : m ∈ specC3Tuples table item payer) :
    ∃ bc bct desc q sc bcl nt ed ref,
      m = specC3Record table bc bct desc payer q sc bcl nt ed ref := by
  unfold specC3Tuples at hm
  cases hg : item.getD "negotiated_rates" (.arr []) with
  | arr groups =>
    rw [hg] at hm
    simp only [List.mem_flatten, List.mem_map] at hm
    obtain ⟨l, ⟨g, _, rfl⟩, hm⟩ := hm
    unfold specC3GroupTuples at hm
    cases hpp : g.getD "negotiated_prices" (.arr []) with
    | arr prices =>
      rw [hpp] at hm
      simp only [List.mem_flatten, List.mem_map] at hm
      obtain ⟨l', ⟨p, _, rfl⟩, hm⟩ := hm
      unfold specC3PriceTuples at hm
      cases hr : p.get "negotiated_rate" with
      | num q =>
        rw [hr] at hm
        simp only [List.mem_map] at hm
        obtain ⟨ref, _, rfl⟩ := hm
        exact ⟨_, _, _, _, _, _, _, _, _, rfl⟩
      | null => rw [hr] at hm; simp at hm
      | bool b => rw [hr] at hm; simp at hm
      | str s => rw [hr] at hm; simp at hm
      | arr xs => rw [hr] at hm; simp at hm
      | obj kvs => rw [hr] at hm; simp at hm
    | null => rw [hpp] at hm; simp at hm
    | bool b => rw [hpp] at hm; simp at hm
    | num q => rw [hpp] at hm; simp at hm
    | str s => rw [hpp] at hm; simp at hm
    | obj kvs => rw [hpp] at hm; simp at hm
  | null => rw [hg] at hm; simp at hm
  | bool b => rw [hg] at hm; simp at hm
  | num q => rw [hg] at hm; simp at hm
  | str s => rw [hg] at hm; simp at hm
  | obj kvs => rw [hg] at hm; simp at hm

/-- C3 (amended): for every in-network item whose rate groups all carry
provider references (over a well-formed reference table, as loaded
eagerly from the out-of-band reference URL), the parser emits exactly one
tuple per (non-null-rate price entry, reference id) pair, looking each id
up in the table; an unresolved id emits exactly one tuple whose
`provider_npi`, `provider_name` and `provider_tin` are all null, and no
tuple carries a `missing_provider_ref` annotation (the code has no such
mechanism). -/
theorem parser_one_tuple_per_reference_id (table : List (JVal × JVal))
    (item : JVal) (payer : String) (htab : wfRefTable table = true)
    (hitem : wfC3Item item = true) :
    parse_negotiated_rates table item payer =
      .ok (specC3Tuples table item payer) ∧
    (∀ m ∈ specC3Tuples table item payer,
      m.contains "missing_provider_ref" = false) ∧
    (∀ (bc bct desc : JVal) (q : Rat) (sc bcl nt ed ref : JVal),
      lookupRef table ref = none →
      (specC3Record table bc bct desc payer q sc bcl nt ed
        ref).get "provider_npi" = .null ∧
      (specC3Record table bc bct desc payer q sc bcl nt ed
        ref).get "provider_name" = .null ∧
      (specC3Record table bc bct desc payer q sc bcl nt ed
        ref).get "provider_tin" = .null) := by
  refine ⟨?_, ?_, ?_⟩
  · cases item with
    | obj ikvs =>
      simp only [wfC3Item] at hitem
      cases hg : (JVal.obj ikvs).getD "negotiated_rates" (.arr []) with
      | arr groups =>
        rw [hg] at hitem
        cases groups with
        | nil =>
          simp [parse_negotiated_rates, specC3Tuples, hg, JVal.truthy]
        | cons g gs =>
          simp only [parse_negotiated_rates, specC3Tuples, hg, JVal.truthy,
            List.isEmpty_cons, Bool.not_false, if_true]
          rw [mapExcept_ok_of_forall _
            (specC3GroupTuples table ((JVal.obj ikvs).get "billing_code")
              ((JVal.obj ikvs).getD "billing_code_type" (.str ""))
              ((JVal.obj ikvs).getD "description" (.str "")) payer)
            (g :: gs) ?_]
          · simp [Bind.bind, Except.bind, pure, Except.pure]
          · intro x hx
            exact parseRateGroup_eq table htab _ _ _ payer x
              (List.all_eq_true.mp hitem x hx)
      | null => rw [hg] at hitem; simp at hitem
      | bool b => rw [hg] at hitem; simp at hitem
      | num q => rw [hg] at hitem; simp at hitem
      | str s => rw [hg] at hitem; simp at hitem
      | obj kvs' => rw [hg] at hitem; simp at hitem
    | null => simp [wfC3Item] at hitem
    | bool b => simp [wfC3Item] at hitem
    | num q => simp [wfC3Item] at hitem
    | str s => simp [wfC3Item] at hitem
    | arr xs => simp [wfC3Item] at hitem
  · intro m hm
    obtain ⟨bc, bct, desc, q, sc, bcl, nt, ed, ref, rfl⟩ :=
      mem_specC3Tuples table item payer m hm
    exact specC3Record_no_annotation table bc bct desc payer q sc bcl nt
      ed ref
  · intro bc bct desc q sc bcl nt ed ref hl
    refine ⟨?_, ?_, ?_⟩ <;>
      simp [specC3Record, hl, JVal.get, JVal.find?, JVal.truthy]

/-- Witness for C3 (amended): a table loaded from a one-entry reference
document (keyed by enumeration index 0) and an item with one resolved
reference id. -/
theorem parser_one_tuple_per_reference_id_witness :
    parse_negotiated_rates
      (providerReferencesFor (some (JVal.obj [("provider_references",
        .arr [.obj [("provider_group_name", .str "Acme Group")]])])))
      (JVal.obj [("billing_code", .str "99213"),
        ("negotiated_rates", .arr [.obj [
          ("provider_references", .arr [.num 0]),
          ("negotiated_prices", .arr [.obj [("negotiated_rate", .num 125)]])]])])
      "acme" =
      .ok (specC3Tuples
        (providerReferencesFor (some (JVal.obj [("provider_references",
          .arr [.obj [("provider_group_name", .str "Acme Group")]])])))
        (JVal.obj [("billing_code", .str "99213"),
          ("negotiated_rates", .arr [.obj [
            ("provider_references", .arr [.num 0]),
            ("negotiated_prices", .arr [.obj [("negotiated_rate", .num 125)]])]])])
        "acme") ∧
    (∀ m ∈ specC3Tuples
        (providerReferencesFor (some (JVal.obj [("provider_references",
          .arr [.obj [("provider_group_name", .str "Acme Group")]])])))
        (JVal.obj [("billing_code", .str "99213"),
          ("negotiated_rates", .arr [.obj [
            ("provider_references", .arr [.num 0]),
            ("negotiated_prices", .arr [.obj [("negotiated_rate", .num 125)]])]])])
        "acme", m.contains "missing_provider_ref" = false) ∧
    (∀ (bc bct desc : JVal) (q : Rat) (sc bcl nt ed ref : JVal),
      lookupRef (providerReferencesFor (some (JVal.obj
        [("provider_references",
          .arr [.obj [("provider_group_name", .str "Acme Group")]])])))
        ref = none →
      (specC3Record (providerReferencesFor (some (JVal.obj
        [("provider_references",
          .arr [.obj [("provider_group_name", .str "Acme Group")]])])))
        bc bct desc "acme" q sc bcl nt ed ref).get "provider_npi" = .null ∧
      (specC3Record (providerReferencesFor (some (JVal.obj
        [("provider_references",
          .arr [.obj [("provider_group_name", .str "Acme Group")]])])))
        bc bct desc "acme" q sc bcl nt ed ref).get "provider_name" = .null ∧
      (specC3Record (providerReferencesFor (some (JVal.obj
        [("provider_references",
          .arr [.obj [("provider_group_name", .str "Acme Group")]])])))
        bc bct desc "acme" q sc bcl nt ed ref).get "provider_tin" = .null) :=
  parser_one_tuple_per_reference_id
    (providerReferencesFor (some (JVal.obj [("provider_references",
      .arr [.obj [("provider_group_name", .str "Acme Group")]])])))
    (JVal.obj [("billing_code", .str "99213"),
      ("negotiated_rates", .arr [.obj [
        ("provider_references", .arr [.num 0]),
        ("negotiated_prices", .arr [.obj [("negotiated_rate", .num 125)]])]])])
    "acme" rfl rfl

/-- Counterexample to C3 as stated: with an empty reference table, the
unresolved id 7 emits exactly one tuple whose provider fields are null —
but the tuple's full field list is explicit and carries no
`missing_provider_ref` annotation (nor is `provider_info` a distinguished
null: the lookup defaults to an empty dict). -/
theorem parser_unresolved_ref_no_annotation_counterexample :
    parse_negotiated_rates [] (JVal.obj [("billing_code", .str "X"),
      ("negotiated_rates", .arr [.obj [
        ("provider_references", .arr [.num 7]),
        ("negotiated_prices", .arr [.obj [("negotiated_rate", .num 100)]])]])])
      "p" =
      .ok [JVal.obj [("billing_code", .str "X"),
        ("billing_code_type", .str ""), ("description", .str ""),
        ("negotiated_rate", .num 100), ("service_codes", .arr []),
        ("billing_class", .str ""), ("negotiated_type", .str ""),
        ("expiration_date", .str ""), ("provider_npi", .null),
        ("provider_name", .null), ("provider_tin", .null),
        ("payer", .str "p")]] ∧
    (JVal.obj [("billing_code", .str "X"),
      ("billing_code_type", .str ""), ("description", .str ""),
      ("negotiated_rate", .num 100), ("service_codes", .arr []),
      ("billing_class", .str ""), ("negotiated_type", .str ""),
      ("expiration_date", .str ""), ("provider_npi", .null),
      ("provider_name", .null), ("provider_tin", .null),
      ("payer", .str "p")]).contains "missing_provider_ref" = false := by
  constructor <;> rfl

mutual

/-- Python `jbeq` is reflexive. -/
theorem jbeq_refl : ∀ v : JVal, JVal.jbeq v v = true
  | .null => rfl
  | .bool b => by simp [JVal.jbeq]
  | .num q => by simp [JVal.jbeq]
  | .str s => by simp [JVal.jbeq]
  | .arr xs => by simp [JVal.jbeq, jbeqList_refl xs]
  | .obj kvs => by simp [JVal.jbeq, jbeqFields_refl kvs]

/-- Python `jbeqList` is reflexive. -/
theorem jbeqList_refl : ∀ xs : List JVal, JVal.jbeqList xs xs = true
  | [] => rfl
  | x :: xs => by simp [JVal.jbeqList, jbeq_refl x, jbeqList_refl xs]

/-- Python `jbeqFields` is reflexive. -/
theorem jbeqFields_refl :
    ∀ kvs : List (String × JVal), JVal.jbeqFields kvs kvs = true
  | [] => rfl
  | (k, v) :: kvs => by
    simp [JVal.jbeqFields, jbeq_refl v, jbeqFields_refl kvs]

end

/-- An in-place update is visible to a lookup of the same key. -/
theorem find?_modifyKey_self (k : String) (f : JVal → JVal) :
    ∀ kvs, JVal.find? (JVal.modifyKey kvs k f) k =
      (JVal.find? kvs k).map f := by
  intro kvs
  induction kvs with
  | nil => rfl
  | cons hd tl ih =>
    obtain ⟨k', v⟩ := hd
    by_cases hk : k' = k <;>
      simp [JVal.modifyKey, JVal.find?, hk, ih]

/-- An in-place update leaves other keys alone. -/
theorem find?_modifyKey_ne (k k' : String) (h : k ≠ k')
    (f : JVal → JVal) :
    ∀ kvs, JVal.find? (JVal.modifyKey kvs k f) k' = JVal.find? kvs k' := by
  intro kvs
  induction kvs with
  | nil => rfl
  | cons hd tl ih =>
    obtain ⟨k'', v⟩ := hd
    by_cases hk : k'' = k
    · subst hk
      simp [JVal.modifyKey, JVal.find?, h]
    · simp [JVal.modifyKey, JVal.find?, hk, ih]

/-- Two in-place updates of the same key compose. -/
theorem modifyKey_modifyKey_same (k : String) (f g : JVal → JVal) :
    ∀ kvs, JVal.modifyKey (JVal.modifyKey kvs k f) k g =
      JVal.modifyKey kvs k fun v => g (f v) := by
  intro kvs
  induction kvs with
  | nil => rfl
  | cons hd tl ih =>
    obtain ⟨k', v⟩ := hd
    by_cases hk : k' = k <;>
      simp [JVal.modifyKey, hk, ih]

/-- An update whose function fixes the present value is the identity. -/
theorem modifyKey_id_of (k : String) (f : JVal → JVal) :
    ∀ kvs, (∀ v, JVal.find? kvs k = some v → f v = v) →
      JVal.modifyKey kvs k f = kvs := by
  intro kvs
  induction kvs with
  | nil => intro _; rfl
  | cons hd tl ih =>
    intro h
    obtain ⟨k', v⟩ := hd
    by_cases hk : k' = k
    · subst hk
      have := h v (by simp [JVal.find?])
      simp [JVal.modifyKey, this]
    · have := ih fun w hw => h w (by simp [JVal.find?, hk, hw])
      simp [JVal.modifyKey, hk, this]

/-- A monadic update whose function returns the present value unchanged
succeeds with the dict unchanged. -/
theorem modifyKeyM_ok_id (k : String) (f : JVal → Except PyErr JVal) :
    ∀ kvs, (∀ v, JVal.find? kvs k = some v → f v = .ok v) →
      JVal.modifyKeyM kvs k f = .ok kvs := by
  intro kvs
  induction kvs with
  | nil => intro _; rfl
  | cons hd tl ih =>
    intro h
    obtain ⟨k', v⟩ := hd
    by_cases hk : k' = k
    · subst hk
      have := h v (by simp [JVal.find?])
      simp [JVal.modifyKeyM, this, Bind.bind, Except.bind, pure, Except.pure]
    · have := ih fun w hw => h w (by simp [JVal.find?, hk, hw])
      simp [JVal.modifyKeyM, hk, this, Bind.bind, Except.bind, pure,
        Except.pure]

/-- A successful monadic update leaves other keys alone. -/
theorem modifyKeyM_ok_ne (k k' : String) (h : k ≠ k')
    (f : JVal → Except PyErr JVal) :
    ∀ kvs kvs', JVal.modifyKeyM kvs k f = .ok kvs' →
      JVal.find? kvs' k' = JVal.find? kvs k' := by
  intro kvs
  induction kvs with
  | nil =>
    intro kvs' hk
    simp only [JVal.modifyKeyM] at hk
    cases hk
    rfl
  | cons hd tl ih =>
    intro kvs' hk
    obtain ⟨k'', v⟩ := hd
    by_cases hkk : k'' = k
    · subst hkk
      simp only [JVal.modifyKeyM, if_pos rfl, Bind.bind, Except.bind] at hk
      cases hf : f v with
      | error e => rw [hf] at hk; simp at hk
      | ok w =>
        rw [hf] at hk
        simp [pure, Except.pure] at hk
        subst hk
        simp [JVal.find?, h]
    · simp only [JVal.modifyKeyM, if_neg hkk, Bind.bind, Except.bind] at hk
      cases hrest : JVal.modifyKeyM tl k f with
      | error e => rw [hrest] at hk; simp at hk
      | ok tl' =>
        rw [hrest] at hk
        simp [pure, Except.pure] at hk
        subst hk
        by_cases hk2 : k'' = k' <;>
          simp [JVal.find?, hk2, ih tl' hrest]

/-- A successful monadic update transforms the present value (and keeps
the key present), or there was no such key. -/
theorem modifyKeyM_ok_self (k : String) (f : JVal → Except PyErr JVal) :
    ∀ kvs kvs', JVal.modifyKeyM kvs k f = .ok kvs' →
      (JVal.find? kvs k = none ∧ JVal.find? kvs' k = none) ∨
      (∃ v w, JVal.find? kvs k = some v ∧ f v = .ok w ∧
        JVal.find? kvs' k = some w) := by
  intro kvs
  induction kvs with
  | nil =>
    intro kvs' hk
    simp only [JVal.modifyKeyM] at hk
    cases hk
    exact .inl ⟨rfl, rfl⟩
  | cons hd tl ih =>
    intro kvs' hk
    obtain ⟨k'', v⟩ := hd
    by_cases hkk : k'' = k
    · subst hkk
      simp only [JVal.modifyKeyM, if_pos rfl, Bind.bind, Except.bind] at hk
      cases hf : f v with
      | error e => rw [hf] at hk; simp at hk
      | ok w =>
        rw [hf] at hk
        simp [pure, Except.pure] at hk
        subst hk
        exact .inr ⟨v, w, by simp [JVal.find?], hf, by simp [JVal.find?]⟩
    · simp only [JVal.modifyKeyM, if_neg hkk, Bind.bind, Except.bind] at hk
      cases hrest : JVal.modifyKeyM tl k f with
      | error e => rw [hrest] at hk; simp at hk
      | ok tl' =>
        rw [hrest] at hk
        simp [pure, Except.pure] at hk
        subst hk
        rcases ih tl' hrest with ⟨h1, h2⟩ | ⟨v', w', h1, h2, h3⟩
        · exact .inl ⟨by simp [JVal.find?, hkk, h1],
            by simp [JVal.find?, hkk, h2]⟩
        · exact .inr ⟨v', w', by simp [JVal.find?, hkk, h1], h2,
            by simp [JVal.find?, hkk, h3]⟩

/-- Inversion for `mapExcept`: every output element is the image of some
input element. -/
theorem mapExcept_ok_mem {α β : Type} (f : α → Except PyErr β) :
    ∀ xs ys, mapExcept f xs = .ok ys → ∀ y ∈ ys, ∃ x ∈ xs, f x = .ok y := by
  intro xs
  induction xs with
  | nil =>
    intro ys h y hy
    simp only [mapExcept] at h
    cases h
    simp at hy
  | cons hd tl ih =>
    intro ys h y hy
    simp only [mapExcept, Bind.bind, Except.bind] at h
    cases hf : f hd with
    | error e => rw [hf] at h; simp at h
    | ok b =>
      rw [hf] at h
      cases hrest : mapExcept f tl with
      | error e => rw [hrest] at h; simp at h
      | ok bs =>
        rw [hrest] at h
        simp [pure, Except.pure] at h
        subst h
        rcases List.mem_cons.mp hy with rfl | hy'
        · exact ⟨hd, by simp, hf⟩
        · obtain ⟨x, hx, hfx⟩ := ih bs hrest y hy'
          exact ⟨x, by simp [hx], hfx⟩

/-- Python `Char.ofNat` round-trips on valid code points. -/
theorem char_ofNat_toNat (n : Nat) (h : n.isValidChar) :
    (Char.ofNat n).toNat = n := by
  unfold Char.ofNat
  rw [dif_pos h]
  rfl

/-- ASCII lowering is idempotent. -/
theorem charLower_idem (c : Char) : charLower (charLower c) = charLower c := by
  unfold charLower
  by_cases h : 65 ≤ c.toNat ∧ c.toNat ≤ 90
  · rw [if_pos h]
    have hv : (Char.ofNat (c.toNat + 32)).toNat = c.toNat + 32 :=
      char_ofNat_toNat _ (.inl (by omega))
    rw [if_neg (by rw [hv]; omega)]
  · rw [if_neg h, if_neg h]

/-- Python `str.lower` is idempotent. -/
theorem strLower_idem (s : String) : strLower (strLower s) = strLower s := by
  show String.mk ((s.data.map charLower).map charLower) =
    String.mk (s.data.map charLower)
  rw [List.map_map]
  refine congrArg String.mk (List.map_congr_left ?_)
  intro c _
  exact charLower_idem c

/-- Python `dropWhile` is idempotent. -/
theorem dropWhile_idem {α : Type} (p : α → Bool) (l : List α) :
    List.dropWhile p (List.dropWhile p l) = List.dropWhile p l := by
  induction l with
  | nil => rfl
  | cons a l ih =>
    by_cases hp : p a = true
    · simp [List.dropWhile_cons, hp, ih]
    · simp [List.dropWhile_cons, hp]

/-- A `dropWhile`-fixed list stays fixed on any prefix. -/
theorem dropWhile_eq_self_of_append {α : Type} (p : α → Bool)
    (l2 t : List α) (h : List.dropWhile p (l2 ++ t) = l2 ++ t) :
    List.dropWhile p l2 = l2 := by
  cases l2 with
  | nil => rfl
  | cons a l2' =>
    have hpa : p a = false := by
      by_cases hpa : p a = true
      · rw [List.cons_append, List.dropWhile_cons, if_pos hpa] at h
        have hlen := (List.dropWhile_sublist (l := l2' ++ t) p).length_le
        rw [h] at hlen
        simp at hlen
      · simpa using hpa
    simp [List.dropWhile_cons, hpa]

/-- Python `str.strip` is idempotent. -/
theorem strStrip_idem (s : String) : strStrip (strStrip s) = strStrip s := by
  show String.mk ((((((s.data.dropWhile isSpc).reverse.dropWhile
      isSpc).reverse).dropWhile isSpc).reverse.dropWhile isSpc).reverse) =
    String.mk (((s.data.dropWhile isSpc).reverse.dropWhile isSpc).reverse)
  have hidem : (s.data.dropWhile isSpc).dropWhile isSpc =
      s.data.dropWhile isSpc := dropWhile_idem isSpc s.data
  have hdecomp : s.data.dropWhile isSpc =
      ((s.data.dropWhile isSpc).reverse.dropWhile isSpc).reverse ++
      ((s.data.dropWhile isSpc).reverse.takeWhile isSpc).reverse := by
    conv_lhs => rw [← List.reverse_reverse (s.data.dropWhile isSpc),
      ← List.takeWhile_append_dropWhile (p := isSpc)
        (l := (s.data.dropWhile isSpc).reverse)]
    rw [List.reverse_append]
  have h1 : (((s.data.dropWhile isSpc).reverse.dropWhile
      isSpc).reverse).dropWhile isSpc =
      ((s.data.dropWhile isSpc).reverse.dropWhile isSpc).reverse := by
    refine dropWhile_eq_self_of_append isSpc _
      ((List.takeWhile isSpc (s.data.dropWhile isSpc).reverse).reverse) ?_
    rw [← hdecomp]
    exact hidem
  rw [h1, List.reverse_reverse, dropWhile_idem]

/-- The lenient float coercion is idempotent. -/
theorem floatCoerceLenient_idem (v : JVal) :
    JVal.floatCoerceLenient (JVal.floatCoerceLenient v) =
      JVal.floatCoerceLenient v := by
  cases v with
  | str s =>
    cases hp : parsePyFloat? s with
    | some q => simp [JVal.floatCoerceLenient, hp]
    | none => simp [JVal.floatCoerceLenient, hp]
  | null => rfl
  | bool b => rfl
  | num q => rfl
  | arr xs => rfl
  | obj kvs => rfl

/-- List wrapping is idempotent. -/
theorem wrapIfNotList_idem (v : JVal) :
    wrapIfNotList (wrapIfNotList v) = wrapIfNotList v := by
  cases v <;> rfl

/-- String-or-list wrapping is idempotent. -/
theorem listWrapOrEmpty_idem (v : JVal) :
    listWrapOrEmpty (listWrapOrEmpty v) = listWrapOrEmpty v := by
  cases v <;> rfl

/-- Lowercasing a guarded string is idempotent. -/
theorem lowerIfStr_idem (v : JVal) :
    lowerIfStr (lowerIfStr v) = lowerIfStr v := by
  cases v with
  | str s => simp [lowerIfStr, strLower_idem]
  | null => rfl
  | bool b => rfl
  | num q => rfl
  | arr xs => rfl
  | obj kvs => rfl

/-- Stripping a guarded string is idempotent. -/
theorem stripIfStr_idem (v : JVal) :
    stripIfStr (stripIfStr v) = stripIfStr v := by
  cases v with
  | str s => simp [stripIfStr, strStrip_idem]
  | null => rfl
  | bool b => rfl
  | num q => rfl
  | arr xs => rfl
  | obj kvs => rfl

/-- A value `.lower()` accepted stays accepted and fixed. -/
theorem pyLower_idem (v w : JVal) (h : pyLower v = .ok w) :
    pyLower w = .ok w := by
  cases v with
  | str s =>
    simp only [pyLower, Except.ok.injEq] at h
    subst h
    simp [pyLower, strLower_idem]
  | null => simp [pyLower] at h
  | bool b => simp [pyLower] at h
  | num q => simp [pyLower] at h
  | arr xs => simp [pyLower] at h
  | obj kvs => simp [pyLower] at h

/-- Pointwise-equal update functions give equal updates. -/
theorem modifyKey_congr (k : String) (f g : JVal → JVal)
    (hfg : ∀ v, f v = g v) :
    ∀ kvs, JVal.modifyKey kvs k f = JVal.modifyKey kvs k g := by
  intro kvs
  induction kvs with
  | nil => rfl
  | cons hd tl ih =>
    obtain ⟨k', v⟩ := hd
    by_cases hk : k' = k <;> simp [JVal.modifyKey, hk, hfg, ih]

/-- Adapting an already-adapted Centene price is the identity. -/
theorem centeneAdaptPrice_idem (p p' : JVal)
    (h : centeneAdaptPrice p = .ok p') : centeneAdaptPrice p' = .ok p' := by
  cases p with
  | obj kvs =>
    simp only [centeneAdaptPrice, Bind.bind, Except.bind] at h
    cases h2 : JVal.modifyKeyM
        (JVal.modifyKey kvs "negotiated_rate" JVal.floatCoerceLenient)
        "negotiated_type" pyLower with
    | error e => rw [h2] at h; simp at h
    | ok kvs2 =>
      rw [h2] at h
      simp only [pure, Except.pure, Except.ok.injEq] at h
      subst h
      have stepA : JVal.modifyKey
          (JVal.modifyKey (JVal.modifyKey kvs2 "service_code" listWrapOrEmpty)
            "billing_code_modifier" listWrapOrEmpty)
          "negotiated_rate" JVal.floatCoerceLenient =
          JVal.modifyKey (JVal.modifyKey kvs2 "service_code" listWrapOrEmpty)
            "billing_code_modifier" listWrapOrEmpty := by
        refine modifyKey_id_of _ _ _ ?_
        intro v hv
        rw [find?_modifyKey_ne "billing_code_modifier" "negotiated_rate"
            (by decide) _ _,
          find?_modifyKey_ne "service_code" "negotiated_rate"
            (by decide) _ _,
          modifyKeyM_ok_ne "negotiated_type" "negotiated_rate" (by decide)
            pyLower _ _ h2,
          find?_modifyKey_self "negotiated_rate" _ _] at hv
        cases hf : JVal.find? kvs "negotiated_rate" with
        | none => simp [hf] at hv
        | some v0 =>
          rw [hf] at hv
          simp at hv
          rw [← hv]
          exact floatCoerceLenient_idem v0
      have stepB : JVal.modifyKeyM
          (JVal.modifyKey (JVal.modifyKey kvs2 "service_code" listWrapOrEmpty)
            "billing_code_modifier" listWrapOrEmpty)
          "negotiated_type" pyLower =
          .ok (JVal.modifyKey
            (JVal.modifyKey kvs2 "service_code" listWrapOrEmpty)
            "billing_code_modifier" listWrapOrEmpty) := by
        refine modifyKeyM_ok_id _ _ _ ?_
        intro v hv
        rw [find?_modifyKey_ne "billing_code_modifier" "negotiated_type"
            (by decide) _ _,
          find?_modifyKey_ne "service_code" "negotiated_type"
            (by decide) _ _] at hv
        rcases modifyKeyM_ok_self "negotiated_type" pyLower _ _ h2 with
          ⟨_, h4⟩ | ⟨v0, w, _, hL, h4⟩
        · rw [h4] at hv; simp at hv
        · rw [h4] at hv
          simp only [Option.some.injEq] at hv
          subst hv
          exact pyLower_idem v0 _ hL
      have stepC : JVal.modifyKey
          (JVal.modifyKey (JVal.modifyKey kvs2 "service_code" listWrapOrEmpty)
            "billing_code_modifier" listWrapOrEmpty)
          "service_code" listWrapOrEmpty =
          JVal.modifyKey (JVal.modifyKey kvs2 "service_code" listWrapOrEmpty)
            "billing_code_modifier" listWrapOrEmpty := by
        refine modifyKey_id_of _ _ _ ?_
        intro v hv
        rw [find?_modifyKey_ne "billing_code_modifier" "service_code"
            (by decide) _ _,
          find?_modifyKey_self "service_code" _ _] at hv
        cases hf : JVal.find? kvs2 "service_code" with
        | none => simp [hf] at hv
        | some v0 =>
          rw [hf] at hv
          simp at hv
          rw [← hv]
          exact listWrapOrEmpty_idem v0
      have stepD : JVal.modifyKey
          (JVal.modifyKey (JVal.modifyKey kvs2 "service_code" listWrapOrEmpty)
            "billing_code_modifier" listWrapOrEmpty)
          "billing_code_modifier" listWrapOrEmpty =
          JVal.modifyKey (JVal.modifyKey kvs2 "service_code" listWrapOrEmpty)
            "billing_code_modifier" listWrapOrEmpty := by
        refine modifyKey_id_of _ _ _ ?_
        intro v hv
        rw [find?_modifyKey_self "billing_code_modifier" _ _] at hv
        cases hf : JVal.find?
            (JVal.modifyKey kvs2 "service_code" listWrapOrEmpty)
            "billing_code_modifier" with
        | none => simp [hf] at hv
        | some v0 =>
          rw [hf] at hv
          simp at hv
          rw [← hv]
          exact listWrapOrEmpty_idem v0
      simp only [centeneAdaptPrice, Bind.bind, Except.bind, stepA, stepB,
        stepC, stepD, pure, Except.pure]
  | null => simp [centeneAdaptPrice] at h
  | bool b => simp [centeneAdaptPrice] at h
  | num q => simp [centeneAdaptPrice] at h
  | str s => simp [centeneAdaptPrice] at h
  | arr xs => simp [centeneAdaptPrice] at h

/-- A successful pricing pass leaves other keys readable unchanged. -/
theorem centenePricingStep_ok_ne (kvs kvs' : List (String × JVal))
    (k : String) (hk : k ≠ "negotiated_prices")
    (h : centenePricingStep kvs = .ok kvs') :
    JVal.find? kvs' k = JVal.find? kvs k := by
  unfold centenePricingStep at h
  cases hf : JVal.find? kvs "negotiated_prices" with
  | none =>
    rw [hf] at h
    cases h
    rfl
  | some v =>
    rw [hf] at h
    cases v with
    | arr prices =>
      simp only [Bind.bind, Except.bind] at h
      cases hm : mapExcept centeneAdaptPrice prices with
      | error e => rw [hm] at h; simp at h
      | ok prices' =>
        rw [hm] at h
        simp only [pure, Except.pure, Except.ok.injEq] at h
        subst h
        exact find?_modifyKey_ne "negotiated_prices" k
          (fun he => hk he.symm) _ kvs
    | null => simp at h
    | bool b => simp at h
    | num q => simp at h
    | str s => simp at h
    | obj kvs'' => simp at h

/-- If a dict's `negotiated_prices` value is the one a successful pricing
pass produced, the pass fixes that dict. -/
theorem centenePricingStep_idem_target (kvs kvs3 target :
    List (String × JVal)) (h : centenePricingStep kvs = .ok kvs3)
    (hsame : JVal.find? target "negotiated_prices" =
      JVal.find? kvs3 "negotiated_prices") :
    centenePricingStep target = .ok target := by
  unfold centenePricingStep at h ⊢
  cases hf : JVal.find? kvs "negotiated_prices" with
  | none =>
    rw [hf] at h
    cases h
    rw [hsame, hf]
  | some v =>
    rw [hf] at h
    cases v with
    | arr prices =>
      simp only [Bind.bind, Except.bind] at h
      cases hm : mapExcept centeneAdaptPrice prices with
      | error e => rw [hm] at h; simp at h
      | ok prices2 =>
        rw [hm] at h
        simp only [pure, Except.pure, Except.ok.injEq] at h
        subst h
        have htarget : JVal.find? target "negotiated_prices" =
            some (.arr prices2) := by
          rw [hsame, find?_modifyKey_self, hf]
          rfl
        rw [htarget]
        have hm2 : mapExcept centeneAdaptPrice prices2 = .ok prices2 := by
          have hpt : ∀ y ∈ prices2, centeneAdaptPrice y = .ok y := by
            intro y hy
            obtain ⟨x, _, hx⟩ := mapExcept_ok_mem centeneAdaptPrice prices
              prices2 hm y hy
            exact centeneAdaptPrice_idem x y hx
          have := mapExcept_ok_of_forall centeneAdaptPrice (fun y => y)
            prices2 hpt
          simpa using this
        simp only [hm2, Bind.bind, Except.bind, pure, Except.pure]
        rw [modifyKey_id_of _ _ _ ?_]
        intro v hv
        rw [htarget] at hv
        simp only [Option.some.injEq] at hv
        rw [hv]
    | null => simp at h
    | bool b => simp at h
    | num q => simp at h
    | str s => simp at h
    | obj kvs2 => simp at h

/-- Adapting an already-adapted Centene rate group is the identity. -/
theorem centeneAdaptRateGroup_idem (g g' : JVal)
    (h : centeneAdaptRateGroup g = .ok g') :
    centeneAdaptRateGroup g' = .ok g' := by
  cases g with
  | obj kvs0 =>
    simp only [centeneAdaptRateGroup, Bind.bind, Except.bind] at h
    cases h3 : centenePricingStep
        (JVal.modifyKey
          (JVal.modifyKey kvs0 "provider_references" wrapIfNotList)
          "provider_groups" wrapIfNotList) with
    | error e => rw [h3] at h; simp at h
    | ok kvs3 =>
      rw [h3] at h
      simp only [pure, Except.pure, Except.ok.injEq] at h
      subst h
      have hA : JVal.modifyKey
          (JVal.modifyKey (JVal.modifyKey kvs3 "negotiation_arrangement"
            lowerIfStr) "billing_code_type_version" stripIfStr)
          "provider_references" wrapIfNotList =
          JVal.modifyKey (JVal.modifyKey kvs3 "negotiation_arrangement"
            lowerIfStr) "billing_code_type_version" stripIfStr := by
        refine modifyKey_id_of _ _ _ ?_
        intro v hv
        rw [find?_modifyKey_ne "billing_code_type_version"
            "provider_references" (by decide) _ _,
          find?_modifyKey_ne "negotiation_arrangement"
            "provider_references" (by decide) _ _,
          centenePricingStep_ok_ne _ _ "provider_references" (by decide) h3,
          find?_modifyKey_ne "provider_groups" "provider_references"
            (by decide) _ _,
          find?_modifyKey_self "provider_references" _ _] at hv
        cases hf : JVal.find? kvs0 "provider_references" with
        | none => simp [hf] at hv
        | some v0 =>
          rw [hf] at hv
          simp at hv
          rw [← hv]
          exact wrapIfNotList_idem v0
      have hB : JVal.modifyKey
          (JVal.modifyKey (JVal.modifyKey kvs3 "negotiation_arrangement"
            lowerIfStr) "billing_code_type_version" stripIfStr)
          "provider_groups" wrapIfNotList =
          JVal.modifyKey (JVal.modifyKey kvs3 "negotiation_arrangement"
            lowerIfStr) "billing_code_type_version" stripIfStr := by
        refine modifyKey_id_of _ _ _ ?_
        intro v hv
        rw [find?_modifyKey_ne "billing_code_type_version" "provider_groups"
            (by decide) _ _,
          find?_modifyKey_ne "negotiation_arrangement" "provider_groups"
            (by decide) _ _,
          centenePricingStep_ok_ne _ _ "provider_groups" (by decide) h3,
          find?_modifyKey_self "provider_groups" _ _] at hv
        cases hf : JVal.find?
            (JVal.modifyKey kvs0 "provider_references" wrapIfNotList)
            "provider_groups" with
        | none => simp [hf] at hv
        | some v0 =>
          rw [hf] at hv
          simp at hv
          rw [← hv]
          exact wrapIfNotList_idem v0
      have hC : centenePricingStep
          (JVal.modifyKey (JVal.modifyKey kvs3 "negotiation_arrangement"
            lowerIfStr) "billing_code_type_version" stripIfStr) =
          .ok (JVal.modifyKey (JVal.modifyKey kvs3 "negotiation_arrangement"
            lowerIfStr) "billing_code_type_version" stripIfStr) := by
        refine centenePricingStep_idem_target _ kvs3 _ h3 ?_
        rw [find?_modifyKey_ne "billing_code_type_version"
            "negotiated_prices" (by decide) _ _,
          find?_modifyKey_ne "negotiation_arrangement" "negotiated_prices"
            (by decide) _ _]
      have hD : JVal.modifyKey
          (JVal.modifyKey (JVal.modifyKey kvs3 "negotiation_arrangement"
            lowerIfStr) "billing_code_type_version" stripIfStr)
          "negotiation_arrangement" lowerIfStr =
          JVal.modifyKey (JVal.modifyKey kvs3 "negotiation_arrangement"
            lowerIfStr) "billing_code_type_version" stripIfStr := by
        refine modifyKey_id_of _ _ _ ?_
        intro v hv
        rw [find?_modifyKey_ne "billing_code_type_version"
            "negotiation_arrangement" (by decide) _ _,
          find?_modifyKey_self "negotiation_arrangement" _ _] at hv
        cases hf : JVal.find? kvs3 "negotiation_arrangement" with
        | none => simp [hf] at hv
        | some v0 =>
          rw [hf] at hv
          simp at hv
          rw [← hv]
          exact lowerIfStr_idem v0
      have hE : JVal.modifyKey
          (JVal.modifyKey (JVal.modifyKey kvs3 "negotiation_arrangement"
            lowerIfStr) "billing_code_type_version" stripIfStr)
          "billing_code_type_version" stripIfStr =
          JVal.modifyKey (JVal.modifyKey kvs3 "negotiation_arrangement"
            lowerIfStr) "billing_code_type_version" stripIfStr := by
        refine modifyKey_id_of _ _ _ ?_
        intro v hv
        rw [find?_modifyKey_self "billing_code_type_version" _ _] at hv
        cases hf : JVal.find?
            (JVal.modifyKey kvs3 "negotiation_arrangement" lowerIfStr)
            "billing_code_type_version" with
        | none => simp [hf] at hv
        | some v0 =>
          rw [hf] at hv
          simp at hv
          rw [← hv]
          exact stripIfStr_idem v0
      simp only [centeneAdaptRateGroup, Bind.bind, Except.bind, hA, hB, hC,
        hD, hE, pure, Except.pure]
  | null => simp [centeneAdaptRateGroup] at h
  | bool b => simp [centeneAdaptRateGroup] at h
  | num q => simp [centeneAdaptRateGroup] at h
  | str s => simp [centeneAdaptRateGroup] at h
  | arr xs => simp [centeneAdaptRateGroup] at h

/-- C4 (amended): the Centene handler is not pure on its input — it
adapts the record *in place* and returns the singleton of the adapted
record, so after the call the input equals the returned item, not its
prior value.  The adaptation is idempotent: feeding the post-call record
back through `parse_in_network` returns it unchanged, i.e. the handler is
pure exactly on already-adapted inputs.  (The claim as stated is refuted
by the counterexample below, where the input's nested `negotiated_type`
is lowercased in place.) -/
theorem centene_adapts_in_place_and_idempotent (record : JVal)
    (out : List JVal × JVal)
    (h : centene_parse_in_network record = .ok out) :
    out.1 = [out.2] ∧
    centene_parse_in_network out.2 = .ok ([out.2], out.2) := by
  cases record with
  | obj kvs =>
    simp only [centene_parse_in_network] at h
    by_cases hs : (JVal.find? kvs "negotiated_rates").isSome = true
    · rw [if_pos hs] at h
      cases hgv : (JVal.find? kvs "negotiated_rates").getD .null with
      | arr groups =>
        rw [hgv] at h
        simp only [Bind.bind, Except.bind] at h
        cases hm : mapExcept centeneAdaptRateGroup groups with
        | error e => rw [hm] at h; simp at h
        | ok groups' =>
          rw [hm] at h
          simp only [pure, Except.pure, Except.ok.injEq] at h
          subst h
          refine ⟨rfl, ?_⟩
          simp only [centene_parse_in_network]
          obtain ⟨v0, hv0⟩ := Option.isSome_iff_exists.mp hs
          have hfind : JVal.find? (JVal.modifyKey kvs "negotiated_rates"
              fun _ => .arr groups') "negotiated_rates" =
              some (.arr groups') := by
            rw [find?_modifyKey_self, hv0]
            rfl
          rw [hfind]
          simp only [Option.isSome_some, if_true, Option.getD_some]
          have hm2 : mapExcept centeneAdaptRateGroup groups' =
              .ok groups' := by
            have hpt : ∀ y ∈ groups', centeneAdaptRateGroup y = .ok y := by
              intro y hy
              obtain ⟨x, _, hx⟩ := mapExcept_ok_mem centeneAdaptRateGroup
                groups groups' hm y hy
              exact centeneAdaptRateGroup_idem x y hx
            have := mapExcept_ok_of_forall centeneAdaptRateGroup
              (fun y => y) groups' hpt
            simpa using this
          simp only [hm2, Bind.bind, Except.bind, pure, Except.pure]
          rw [modifyKey_modifyKey_same]
      | null => rw [hgv] at h; simp at h
      | bool b => rw [hgv] at h; simp at h
      | num q => rw [hgv] at h; simp at h
      | str s => rw [hgv] at h; simp at h
      | obj kvs' => rw [hgv] at h; simp at h
    · rw [if_neg hs] at h
      simp only [Except.ok.injEq] at h
      subst h
      refine ⟨rfl, ?_⟩
      simp only [centene_parse_in_network]
      rw [if_neg hs]
  | null => simp [centene_parse_in_network] at h
  | bool b => simp [centene_parse_in_network] at h
  | num q => simp [centene_parse_in_network] at h
  | str s => simp [centene_parse_in_network] at h
  | arr xs => simp [centene_parse_in_network] at h

/-- Witness for C4 (amended): a concrete record whose `negotiated_type`
gets lowercased; the second call preserves the adapted record. -/
theorem centene_adapts_in_place_and_idempotent_witness :
    ([JVal.obj [("negotiated_rates", JVal.arr [JVal.obj
        [("negotiated_prices", JVal.arr [JVal.obj
          [("negotiated_type", JVal.str "negotiated")]])]])]] =
      [JVal.obj [("negotiated_rates", JVal.arr [JVal.obj
        [("negotiated_prices", JVal.arr [JVal.obj
          [("negotiated_type", JVal.str "negotiated")]])]])]]) ∧
    centene_parse_in_network (JVal.obj [("negotiated_rates", JVal.arr
      [JVal.obj [("negotiated_prices", JVal.arr [JVal.obj
        [("negotiated_type", JVal.str "negotiated")]])]])]) =
      .ok ([JVal.obj [("negotiated_rates", JVal.arr [JVal.obj
        [("negotiated_prices", JVal.arr [JVal.obj
          [("negotiated_type", JVal.str "negotiated")]])]])]],
        JVal.obj [("negotiated_rates", JVal.arr [JVal.obj
          [("negotiated_prices", JVal.arr [JVal.obj
            [("negotiated_type", JVal.str "negotiated")]])]])]) :=
  centene_adapts_in_place_and_idempotent
    (JVal.obj [("negotiated_rates", JVal.arr [JVal.obj
      [("negotiated_prices", JVal.arr [JVal.obj
        [("negotiated_type", JVal.str "NEGOTIATED")]])]])])
    ([JVal.obj [("negotiated_rates", JVal.arr [JVal.obj
      [("negotiated_prices", JVal.arr [JVal.obj
        [("negotiated_type", JVal.str "negotiated")]])]])]],
      JVal.obj [("negotiated_rates", JVal.arr [JVal.obj
        [("negotiated_prices", JVal.arr [JVal.obj
          [("negotiated_type", JVal.str "negotiated")]])]])])
    (by rfl)

/-- Counterexample to C4 as stated: after `parse_in_network` returns on
this record, the caller's record holds the adapted value (nested
`negotiated_type` lowercased in place), which is not structurally equal
to the value before the call. -/
theorem centene_mutates_input_counterexample :
    centene_parse_in_network (JVal.obj [("negotiated_rates", JVal.arr
      [JVal.obj [("negotiated_prices", JVal.arr [JVal.obj
        [("negotiated_type", JVal.str "NEGOTIATED")]])]])]) =
      .ok ([JVal.obj [("negotiated_rates", JVal.arr [JVal.obj
        [("negotiated_prices", JVal.arr [JVal.obj
          [("negotiated_type", JVal.str "negotiated")]])]])]],
        JVal.obj [("negotiated_rates", JVal.arr [JVal.obj
          [("negotiated_prices", JVal.arr [JVal.obj
            [("negotiated_type", JVal.str "negotiated")]])]])]) ∧
    JVal.obj [("negotiated_rates", JVal.arr [JVal.obj
      [("negotiated_prices", JVal.arr [JVal.obj
        [("negotiated_type", JVal.str "negotiated")]])]])] ≠
    JVal.obj [("negotiated_rates", JVal.arr [JVal.obj
      [("negotiated_prices", JVal.arr [JVal.obj
        [("negotiated_type", JVal.str "NEGOTIATED")]])]])] := by
  constructor
  · rfl
  · intro hcontra
    have hbeq : JVal.jbeq
        (JVal.obj [("negotiated_rates", JVal.arr [JVal.obj
          [("negotiated_prices", JVal.arr [JVal.obj
            [("negotiated_type", JVal.str "negotiated")]])]])])
        (JVal.obj [("negotiated_rates", JVal.arr [JVal.obj
          [("negotiated_prices", JVal.arr [JVal.obj
            [("negotiated_type", JVal.str "NEGOTIATED")]])]])]) = true := by
      rw [hcontra]
      exact jbeq_refl _
    simp [JVal.jbeq, JVal.jbeqFields, JVal.jbeqList] at hbeq

end TiC
